import Mathlib

/-!
Shallow embedding of the Bühlmann ZH-L16C + Gradient-Factor decompression
planner (TypeScript sources: `src/core/constants.ts`, `src/core/utils.ts`,
`src/core/algorithm.ts` (the de-duplicated version with `totalDiveTime`),
`src/core/multi-gas.ts`, `src/core/oxygen-toxicity.ts` and the
adapter entry point `planDive` with its validators).

Conventions of the embedding:
* JavaScript numbers are modelled as exact rationals (`ℚ`).  Decimal
  literals such as `1.01325` or the tolerances `1e-6`, `1e-9` are taken at
  their exact decimal value.
* `Math.ceil` is `Int.ceil`, `Math.floor` is `Int.floor`, and
  `Math.round` (round half toward positive infinity) is `jsRound`.
* The only transcendental operation in the sources is
  `Math.exp(-(Math.log 2 / halfTime) * minutes)` inside
  `updateConstantDepth`.  It is kept as an explicit function parameter
  `E : ℚ → ℚ → ℚ` (first argument the half time, second the minutes);
  everything else is translated literally.  All scheduling theorems are
  proved for an arbitrary `E`, concrete evaluations instantiate it.
* The two unbounded `while` loops of the scheduler are written with an
  explicit fuel argument; the planner itself passes a precomputed fuel
  that is proved sufficient (claim C10).
-/

deriving instance DecidableEq for Except

namespace Buhlmann

/-- `Math.round`: round half toward positive infinity (`src` displays whole
minutes with `Math.round`). -/
def jsRound (q : ℚ) : ℤ := ⌊q + 1/2⌋

/-! ## Constants (`src/core/constants.ts`) -/

def SURFACE_PRESSURE : ℚ := 1.01325

def WATER_VAPOUR_PRESSURE : ℚ := 0.0627

def PRESSURE_PER_METER : ℚ := 0.1

def HALF_TIMES_N2 : List ℚ :=
  [5.0, 8.0, 12.5, 18.5, 27.0, 38.3, 54.3, 77.0, 109.0, 146.0, 187.0,
   239.0, 305.0, 390.0, 498.0, 635.0]

def HALF_TIMES_HE : List ℚ :=
  [1.88, 3.02, 4.72, 6.99, 10.21, 14.48, 20.53, 29.11, 41.20, 55.19,
   70.69, 90.34, 115.29, 147.42, 188.24, 240.03]

def A_N2 : List ℚ :=
  [1.1696, 1.0, 0.8618, 0.7562, 0.6667, 0.5933, 0.5282, 0.4701, 0.4187,
   0.3798, 0.3497, 0.3223, 0.2971, 0.2737, 0.2523, 0.2327]

def B_N2 : List ℚ :=
  [0.5578, 0.6514, 0.7222, 0.7825, 0.8126, 0.8434, 0.8693, 0.8910,
   0.9092, 0.9222, 0.9319, 0.9403, 0.9477, 0.9544, 0.9602, 0.9653]

def A_HE : List ℚ :=
  [1.6189, 1.3830, 1.1919, 1.0458, 0.9220, 0.8205, 0.7305, 0.6502,
   0.5950, 0.5545, 0.5333, 0.5189, 0.5181, 0.5176, 0.5172, 0.5119]

def B_HE : List ℚ :=
  [0.4770, 0.5747, 0.6527, 0.7223, 0.7582, 0.7957, 0.8279, 0.8553,
   0.8757, 0.8903, 0.8997, 0.9073, 0.9122, 0.9171, 0.9217, 0.9267]

/-! ## Data model (`src/core/models.ts`) -/

structure GasMix where
  FO2 : ℚ
  FHe : ℚ
  FN2 : ℚ
deriving Repr, DecidableEq

structure TissueState where
  pN2 : List ℚ
  pHe : List ℚ
deriving Repr, DecidableEq

structure DecompressionStop where
  depth : ℚ
  time : ℚ
  gf : ℚ
deriving Repr, DecidableEq

/-- The plan record returned by the de-duplicated `planDecompression`
(`firstStopDepth`, `stops`, `tts`, `totalDiveTime`, `descentTime`,
`bottomTime`).  The optional `oxygenToxicity` annotation is a pure
side-accumulation that never feeds back into the schedule and is not the
subject of any claim, so it is not carried here. -/
structure DecompressionPlan where
  firstStopDepth : ℚ
  stops : List DecompressionStop
  tts : ℤ
  totalDiveTime : ℤ
  descentTime : ℤ
  bottomTime : ℚ
deriving Repr, DecidableEq

/-! ## Utilities (`src/core/utils.ts`) -/

def depthToPressure (depthM : ℚ) : ℚ :=
  SURFACE_PRESSURE + depthM * PRESSURE_PER_METER

def computePinsp (pAmb fInert : ℚ) : ℚ :=
  max 0 ((pAmb - WATER_VAPOUR_PRESSURE) * fInert)

def initTissues : TissueState :=
  { pN2 := HALF_TIMES_N2.map fun _ => computePinsp SURFACE_PRESSURE 0.79
    pHe := HALF_TIMES_HE.map fun _ => 0 }

/-- `updateConstantDepth` with the Schreiner/Haldane exponential
`Math.exp (-(LN2 / halfTime) * minutes)` abstracted as `E halfTime minutes`. -/
def updateConstantDepth (E : ℚ → ℚ → ℚ) (st : TissueState) (depthM : ℚ)
    (gas : GasMix) (minutes : ℚ) : TissueState :=
  let pAmb := depthToPressure depthM
  let pN2i := computePinsp pAmb gas.FN2
  let pHei := computePinsp pAmb gas.FHe
  { pN2 := (st.pN2.zip HALF_TIMES_N2).map fun p =>
      p.1 + (pN2i - p.1) * (1 - E p.2 minutes)
    pHe := (st.pHe.zip HALF_TIMES_HE).map fun p =>
      p.1 + (pHei - p.1) * (1 - E p.2 minutes) }

/-! ## Ceiling calculator (`src/core/algorithm.ts`, `ceilingForComp` and
`overallCeiling`) -/

/-- Index accessors into the parallel coefficient tables (the sources index
the arrays directly; all call sites use `i < 16`). -/
def aN2 (i : ℕ) : ℚ := A_N2.getD i 0

def bN2 (i : ℕ) : ℚ := B_N2.getD i 0

def aHE (i : ℕ) : ℚ := A_HE.getD i 0

def bHE (i : ℕ) : ℚ := B_HE.getD i 0

/-- Erik Baker corrected per-compartment ceiling, in meters.
JavaScript `pn + ph || 1e-9` yields `1e-9` exactly when `pn + ph` is `0`. -/
def ceilingForComp (pN2 pHe gf : ℚ) (i : ℕ) : ℚ :=
  let pn := max 0 pN2
  let ph := max 0 pHe
  let sum := if pn + ph = 0 then 1e-9 else pn + ph
  let a := (aN2 i * pn + aHE i * ph) / sum
  let b := (bN2 i * pn + bHE i * ph) / sum
  let pt := pn + ph
  let pAmbMin := (pt - gf * a) / (gf / b + (1 - gf))
  max 0 ((pAmbMin - SURFACE_PRESSURE) / PRESSURE_PER_METER)

/-- `overallCeiling`: fold of `if (c > worst) worst = c` starting from `0`
over the compartments of the state. -/
def overallCeiling (st : TissueState) (gf : ℚ) : ℚ :=
  (List.range st.pN2.length).foldl
    (fun worst i =>
      let c := ceilingForComp (st.pN2.getD i 0) (st.pHe.getD i 0) gf i
      if worst < c then c else worst)
    0

/-! ## Gradient factor interpolation (`gfAtDepth`) -/

def gfAtDepth (depthM gfLow gfHigh firstStopDepth : ℚ) : ℚ :=
  let fs : ℚ := max 0 ((⌈firstStopDepth / 3⌉ : ℤ) * 3)
  if fs ≤ 0 then gfHigh
  else gfLow + (gfHigh - gfLow) * max 0 (min 1 (1 - depthM / fs))

/-! ## Scheduler (`planDecompression`, the de-duplicated version with
`timeStepMinutes`, `descentTime`, `totalDiveTime`) -/

def STOP_STEP : ℚ := 3

def ASCENT_RATE : ℚ := 9

def DESCENT_RATE : ℚ := 19

/-- The option bag, with the defaults applied by `??` in the source. -/
structure PlanOpts where
  lastStopDepth : ℚ := 3
  minLastStopMinutes : ℚ := 0
  timeStepMinutes : ℚ := 0.5
deriving Repr, DecidableEq

/-- One depth-change simulation loop.  The source repeats this block four
times (descent, ascent to first stop, the 3 m inter-stop ascents and the
final ascent); all four instances are
`for (i = 0; i < steps; i++) { actualStep = min(timeStep, totalTime - i*timeStep);
next = clamp(cur ± rate*actualStep); update(st, next, gas, actualStep); cur = next }`,
with `min`-clamping toward a deeper `target` on descent (`down = true`) and
`max`-clamping toward a shallower `target` on ascent (`down = false`).
`n` is the number of remaining iterations and `i` the source loop index. -/
def moveLoop (E : ℚ → ℚ → ℚ) (gas : GasMix) (rate target timeStep totalTime : ℚ)
    (down : Bool) : ℕ → ℕ → TissueState → ℚ → TissueState × ℚ
  | 0, _, st, cur => (st, cur)
  | n + 1, i, st, cur =>
    let actualStep := min timeStep (totalTime - i * timeStep)
    let next := if down then min target (cur + rate * actualStep)
      else max target (cur - rate * actualStep)
    moveLoop E gas rate target timeStep totalTime down n (i + 1)
      (updateConstantDepth E st next gas actualStep) next

/-- The descent block (`if (depthM > 0) { ... }`): returns the new tissue
state, the new current depth and the accumulated time `steps * timeStep`. -/
def descentBlock (E : ℚ → ℚ → ℚ) (gas : GasMix) (timeStep depthM : ℚ)
    (st : TissueState) (cur : ℚ) : TissueState × ℚ × ℚ :=
  if 0 < depthM then
    let totalTime := depthM / DESCENT_RATE
    let steps : ℤ := ⌈totalTime / timeStep⌉
    let m := moveLoop E gas DESCENT_RATE depthM timeStep totalTime true
      steps.toNat 0 st cur
    (m.1, m.2, (steps : ℚ) * timeStep)
  else (st, cur, 0)

/-- An ascent block (`if (cur > target) { ... }`): the source repeats this
for the ascent to the first stop, each 3 m inter-stop ascent and the final
ascent.  Returns the new tissue state, the new current depth and the time
`steps * timeStep` that the source adds to `decoTime`. -/
def ascentBlock (E : ℚ → ℚ → ℚ) (gas : GasMix) (timeStep target : ℚ)
    (st : TissueState) (cur : ℚ) : TissueState × ℚ × ℚ :=
  if target < cur then
    let totalTime := (cur - target) / ASCENT_RATE
    let steps : ℤ := ⌈totalTime / timeStep⌉
    let m := moveLoop E gas ASCENT_RATE target timeStep totalTime false
      steps.toNat 0 st cur
    (m.1, m.2, (steps : ℚ) * timeStep)
  else (st, cur, 0)

/-- The inner `while (true)` hold loop of a stop.  Returns the updated
tissue state, the held time and the decompression-time accumulator.  `fuel`
bounds the recursion; the planner passes a fuel proved sufficient whenever
`timeStep > 0` (the source loop does not terminate for `timeStep ≤ 0`). -/
def holdLoop (E : ℚ → ℚ → ℚ) (gas : GasMix)
    (gfLow gfHigh firstStop stopDepth lastStopDepth minLast timeStep : ℚ) :
    ℕ → TissueState → ℚ → ℚ → TissueState × ℚ × ℚ
  | 0, st, held, deco => (st, held, deco)
  | fuel + 1, st, held, deco =>
    let nextDepth := max 0 (stopDepth - STOP_STEP)
    let gfNext := gfAtDepth nextDepth gfLow gfHigh firstStop
    let ceilNext := overallCeiling st gfNext
    if ceilNext ≤ nextDepth + 1e-6 ∧ (stopDepth ≠ lastStopDepth ∨ minLast ≤ held)
    then (st, held, deco)
    else
      let st' := updateConstantDepth E st stopDepth gas timeStep
      let held' := held + timeStep
      let deco' := deco + timeStep
      if 360 < held' then (st', held', deco')
      else holdLoop E gas gfLow gfHigh firstStop stopDepth lastStopDepth
        minLast timeStep fuel st' held' deco'

/-- Accumulators threaded through the stop loop: the source variable
`decoTime` plus three instrumentation-only phase totals (held stop time and
inter-stop ascent time accumulated inside the loop, each incremented exactly
where the source increments `decoTime`); they never influence control flow. -/
structure StopAcc where
  deco : ℚ
  holdT : ℚ
  interAscT : ℚ
deriving Repr, DecidableEq

/-- The result of one iteration of the stop loop: the updated tissue state,
depth and accumulators, the stop entries pushed by this iteration, and
whether the loop breaks (`stopDepth === 0 && cur === 0` after the 3 m
ascent). -/
structure StopIter where
  st : TissueState
  cur : ℚ
  acc : StopAcc
  push : List DecompressionStop
  brk : Bool
deriving Repr, DecidableEq

/-- One iteration of the `while (stopDepth >= lastStopDepth)` body: hold at
the stop until the next depth is allowed (or the 360-minute guard fires),
record the stop when any time was held, then ascend 3 m. -/
def stopIter (E : ℚ → ℚ → ℚ) (gas : GasMix)
    (gfLow gfHigh firstStop lastStopDepth minLast timeStep : ℚ)
    (holdFuel : ℕ) (stopDepth : ℚ) (st : TissueState) (cur : ℚ)
    (acc : StopAcc) : StopIter :=
  let r1 := holdLoop E gas gfLow gfHigh firstStop stopDepth lastStopDepth
    minLast timeStep holdFuel st 0 acc.deco
  let st1 := r1.1
  let held := r1.2.1
  let acc1 : StopAcc := { deco := r1.2.2, holdT := acc.holdT + held,
                          interAscT := acc.interAscT }
  let push := if 0 < held then
      [{ depth := stopDepth, time := (jsRound held : ℚ),
         gf := gfAtDepth stopDepth gfLow gfHigh firstStop }]
    else []
  let nextDepth := max 0 (stopDepth - STOP_STEP)
  let a := ascentBlock E gas timeStep nextDepth st1 cur
  let acc2 : StopAcc := { deco := acc1.deco + a.2.2, holdT := acc1.holdT,
                          interAscT := acc1.interAscT + a.2.2 }
  { st := a.1, cur := a.2.1, acc := acc2, push := push,
    brk := decide (nextDepth = 0 ∧ a.2.1 = 0) }

/-- The outer `while (stopDepth >= lastStopDepth)` loop.  Returns the tissue
state, current depth, accumulators and the stop list.  `holdFuel` is the
fuel handed to each inner hold loop and `fuel` bounds the outer loop. -/
def stopLoop (E : ℚ → ℚ → ℚ) (gas : GasMix)
    (gfLow gfHigh firstStop lastStopDepth minLast timeStep : ℚ)
    (holdFuel : ℕ) :
    ℕ → ℚ → TissueState → ℚ → StopAcc → List DecompressionStop →
    TissueState × ℚ × StopAcc × List DecompressionStop
  | 0, _, st, cur, acc, stops => (st, cur, acc, stops)
  | fuel + 1, stopDepth, st, cur, acc, stops =>
    if lastStopDepth ≤ stopDepth then
      let b := stopIter E gas gfLow gfHigh firstStop lastStopDepth minLast
        timeStep holdFuel stopDepth st cur acc
      if b.brk then (b.st, b.cur, b.acc, stops ++ b.push)
      else stopLoop E gas gfLow gfHigh firstStop lastStopDepth minLast
        timeStep holdFuel fuel (max 0 (stopDepth - STOP_STEP)) b.st b.cur
        b.acc (stops ++ b.push)
    else (st, cur, acc, stops)

/-- Fuel for the hold loop: sufficient whenever `timeStep > 0`, since the
held time grows by `timeStep` each iteration and the loop breaks as soon as
it exceeds 360 minutes. -/
def holdFuelFor (timeStep : ℚ) : ℕ := (⌈(361 : ℚ) / timeStep⌉).toNat + 1

/-- Fuel for the stop loop: the candidate stop depth drops by 3 m per
iteration. -/
def stopFuelFor (firstStop : ℚ) : ℕ := (⌈firstStop / 3⌉).toNat + 2

/-- Everything `planDecompression` computes before assembling the plan
record.  `descentTime` and `decoTime` are the raw (unrounded) source
variables; `ascFirstT` and `finalAscT` are the instrumentation-only phase
totals for the ascent to the first stop and the final ascent. -/
structure SimAux where
  st : TissueState
  cur : ℚ
  descentTime : ℚ
  decoTime : ℚ
  ascFirstT : ℚ
  holdT : ℚ
  interAscT : ℚ
  finalAscT : ℚ
  firstStop : ℚ
  stops : List DecompressionStop
deriving Repr, DecidableEq

/-- The descent phase (`if (depthM > 0)` block applied to the fresh tissue
state at the surface). -/
def descentOf (E : ℚ → ℚ → ℚ) (gas : GasMix) (timeStep depthM : ℚ) :
    TissueState × ℚ × ℚ :=
  descentBlock E gas timeStep depthM initTissues 0

/-- Descent followed by the bottom segment (`if (bottomMin > 0)` block):
tissue state and current depth entering the decompression phase. -/
def preStop (E : ℚ → ℚ → ℚ) (gas : GasMix)
    (timeStep depthM bottomMin : ℚ) : TissueState × ℚ :=
  if 0 < bottomMin then
    (updateConstantDepth E (descentOf E gas timeStep depthM).1 depthM gas
      bottomMin, depthM)
  else ((descentOf E gas timeStep depthM).1, (descentOf E gas timeStep depthM).2.1)

/-- `firstStop = max(lastStopDepth, ceil(firstCeil / 3) * 3)` with
`firstCeil = overallCeiling(state after bottom, gfLow)`. -/
def firstStopOf (E : ℚ → ℚ → ℚ) (gas : GasMix)
    (timeStep depthM bottomMin gfLow lastStopDepth : ℚ) : ℚ :=
  max lastStopDepth
    ((⌈overallCeiling (preStop E gas timeStep depthM bottomMin).1 gfLow /
      STOP_STEP⌉ : ℤ) * STOP_STEP)

/-- The ascent from the bottom toward the first stop. -/
def ascFirstOf (E : ℚ → ℚ → ℚ) (gas : GasMix)
    (timeStep depthM bottomMin gfLow lastStopDepth : ℚ) :
    TissueState × ℚ × ℚ :=
  ascentBlock E gas timeStep
    (firstStopOf E gas timeStep depthM bottomMin gfLow lastStopDepth)
    (preStop E gas timeStep depthM bottomMin).1
    (preStop E gas timeStep depthM bottomMin).2

/-- The simulation body of `planDecompression` (descent, bottom, first
ceiling, ascent to first stop, stop loop, final ascent).  `extraHold` and
`extraStop` add fuel on top of the precomputed bounds; the planner uses 0
and claim C10 shows any extra fuel yields the same result. -/
def planDecompressionAuxE (E : ℚ → ℚ → ℚ) (extraHold extraStop : ℕ)
    (depthM bottomMin : ℚ) (gas : GasMix) (gfLow gfHigh : ℚ)
    (opts : PlanOpts) : SimAux :=
  let lastStopDepth := max 0 opts.lastStopDepth
  let minLast : ℚ := ((max 0 ⌊opts.minLastStopMinutes⌋ : ℤ) : ℚ)
  let timeStep := opts.timeStepMinutes
  let firstStop := firstStopOf E gas timeStep depthM bottomMin gfLow
    lastStopDepth
  let ascFirst := ascFirstOf E gas timeStep depthM bottomMin gfLow
    lastStopDepth
  -- Stop loop
  let loop := stopLoop E gas gfLow gfHigh firstStop lastStopDepth minLast
    timeStep (holdFuelFor timeStep + extraHold)
    (stopFuelFor firstStop + extraStop) firstStop ascFirst.1 ascFirst.2.1
    { deco := ascFirst.2.2, holdT := 0, interAscT := 0 } []
  -- Final ascent (safety net; `cur / ASCENT_RATE = (cur - 0) / ASCENT_RATE`)
  let finalAsc := ascentBlock E gas timeStep 0 loop.1 loop.2.1
  { st := finalAsc.1
    cur := finalAsc.2.1
    descentTime := (descentOf E gas timeStep depthM).2.2
    decoTime := loop.2.2.1.deco + finalAsc.2.2
    ascFirstT := ascFirst.2.2
    holdT := loop.2.2.1.holdT
    interAscT := loop.2.2.1.interAscT
    finalAscT := finalAsc.2.2
    firstStop := firstStop
    stops := loop.2.2.2 }

def planDecompressionAux (E : ℚ → ℚ → ℚ) (depthM bottomMin : ℚ)
    (gas : GasMix) (gfLow gfHigh : ℚ) (opts : PlanOpts) : SimAux :=
  planDecompressionAuxE E 0 0 depthM bottomMin gas gfLow gfHigh opts

/-- `planDecompression`: runs the simulation and assembles the plan record
(`tts = Math.round(decoTime)`,
`totalDiveTime = Math.round(descentTime + bottomMin + decoTime)`,
`descentTime = Math.round(descentTime)`, `bottomTime = bottomMin`). -/
def planDecompression (E : ℚ → ℚ → ℚ) (depthM bottomMin : ℚ) (gas : GasMix)
    (gfLow gfHigh : ℚ) (opts : PlanOpts) : DecompressionPlan :=
  let r := planDecompressionAux E depthM bottomMin gas gfLow gfHigh opts
  { firstStopDepth := r.firstStop
    stops := r.stops
    tts := jsRound r.decoTime
    totalDiveTime := jsRound (r.descentTime + bottomMin + r.decoTime)
    descentTime := jsRound r.descentTime
    bottomTime := bottomMin }

/-! ## Multi-gas selector (`src/core/multi-gas.ts`) and
`calculatePO2` (`src/core/oxygen-toxicity.ts`) -/

def calculatePO2 (depthM fO2 : ℚ) : ℚ := depthToPressure depthM * fO2

structure GasSwitch where
  depth : ℚ
  gas : GasMix
  name : Option String
deriving Repr, DecidableEq

structure GasChoice where
  gas : GasMix
  name : Option String
  shouldSwitch : Bool
deriving Repr, DecidableEq

/-- Loop state of `getBestGasForDepth`: the selected gas, its name, the
`shouldSwitch` variable, and whether `bestGas` was ever reassigned.  The
source returns `shouldSwitch && (bestGas !== currentGas)` where `!==` is
reference inequality: `bestGas` is a different reference from `currentGas`
exactly when the loop reassigned it (each reassignment strictly increases
`FO2`, so a reassigned `bestGas` also differs as a value). -/
def bestGasStep (depth maxPO2 : ℚ)
    (acc : GasMix × Option String × Bool × Bool) (gs : GasSwitch) :
    GasMix × Option String × Bool × Bool :=
  if gs.depth ≤ depth then
    let gasPO2 := calculatePO2 depth gs.gas.FO2
    if gasPO2 ≤ maxPO2 then
      if acc.1.FO2 < gs.gas.FO2 then (gs.gas, gs.name, true, true) else acc
    else acc
  else acc

def getBestGasForDepth (depth : ℚ) (availableGases : List GasSwitch)
    (currentGas : GasMix) (maxPO2 : ℚ) : GasChoice :=
  let currentPO2 := calculatePO2 depth currentGas.FO2
  let r := availableGases.foldl (bestGasStep depth maxPO2)
    (currentGas, none, false, false)
  let sw := if maxPO2 < currentPO2 then true else r.2.2.1
  { gas := r.1, name := r.2.1, shouldSwitch := sw && r.2.2.2 }

/-! ## Input validation and entry point (`normaliseGas`,
`normaliseGradientFactors`, `planDive`).

The repository carries two copies of each validator: a minimal one
(`src/adapter/index.ts`, here suffixed `Min`) and the improved adapter
(here unsuffixed).  Throwing is modelled with `Except String`. -/

/-- Minimal `normaliseGas`: recomputes `FN2 = 1 - FO2 - FHe` and then
checks that the three fractions sum to 1.  (Only `FO2` and `FHe` of the
input are read.) -/
def normaliseGasMin (FO2 FHe : ℚ) : Except String GasMix :=
  let FN2 := 1 - FO2 - FHe
  if 1e-6 < |FO2 + FHe + FN2 - 1| then Except.error "gas fractions must sum to 1"
  else Except.ok { FO2 := FO2, FHe := FHe, FN2 := FN2 }

/-- A gas-mix argument as JavaScript sees it: `FHe` and `FN2` may be absent
(`undefined`). -/
structure GasMixInput where
  FO2 : ℚ
  FHe : Option ℚ
  FN2 : Option ℚ
deriving Repr, DecidableEq

/-- JavaScript `a || b`: `b` when `a` is `undefined` or `0` (falsy). -/
def jsOr (a : Option ℚ) (b : ℚ) : ℚ :=
  match a with
  | some v => if v = 0 then b else v
  | none => b

/-- Improved `normaliseGas`: bounds checks on each fraction, then the sum
check with tolerance `1e-6`. -/
def normaliseGas (g : GasMixInput) : Except String GasMix :=
  let FO2 := g.FO2
  let FHe := jsOr g.FHe 0
  let FN2 := jsOr g.FN2 (1 - FO2 - FHe)
  if FO2 < 0 ∨ 1 < FO2 then Except.error "FO2 must be between 0 and 1"
  else if FHe < 0 ∨ 1 < FHe then Except.error "FHe must be between 0 and 1"
  else if FN2 < 0 ∨ 1 < FN2 then Except.error "FN2 must be between 0 and 1"
  else if 1e-6 < |FO2 + FHe + FN2 - 1| then
    Except.error "Gas fractions must sum to 1"
  else Except.ok { FO2 := FO2, FHe := FHe, FN2 := FN2 }

/-- Improved `normaliseGradientFactors`: percentage bounds `[0, 100]` and
ordering check, then division by 100. -/
def normaliseGradientFactors (gfLowPct gfHighPct : ℚ) :
    Except String (ℚ × ℚ) :=
  if gfLowPct < 0 ∨ 100 < gfLowPct then
    Except.error "GF Low must be between 0 and 100"
  else if gfHighPct < 0 ∨ 100 < gfHighPct then
    Except.error "GF High must be between 0 and 100"
  else if gfHighPct < gfLowPct then Except.error "GF Low must be <= GF High"
  else Except.ok (gfLowPct / 100, gfHighPct / 100)

/-- `planDive`: normalise the gas, normalise the gradient factors, then run
the scheduler.  A validation failure aborts before any simulation. -/
def planDive (E : ℚ → ℚ → ℚ) (depthM bottomMin : ℚ) (gasIn : GasMixInput)
    (gfLowPct gfHighPct : ℚ) (opts : PlanOpts) :
    Except String DecompressionPlan := do
  let gas ← normaliseGas gasIn
  let gf ← normaliseGradientFactors gfLowPct gfHighPct
  pure (planDecompression E depthM bottomMin gas gf.1 gf.2 opts)

/-! ## Fixtures for concrete evaluations -/

/-- Air, as used throughout the repository examples. -/
def airMix : GasMix := { FO2 := 0.21, FHe := 0, FN2 := 0.79 }

/-- Air in input form for the adapter. -/
def airInput : GasMixInput := { FO2 := 0.21, FHe := some 0, FN2 := some 0.79 }

/-- Nitrox 50, the standard deco gas of `createStandardDecoGases`. -/
def ean50Mix : GasMix := { FO2 := 0.50, FHe := 0, FN2 := 0.50 }

/-- Pure oxygen. -/
def oxygenMix : GasMix := { FO2 := 1, FHe := 0, FN2 := 0 }

/-- Tissue-exponential stand-in with no uptake at all
(`exp(-k*m) = 1`, i.e. the zero-time limit): every `updateConstantDepth`
leaves the state unchanged.  At the inputs below the real exponential gives
the same schedule (all ceilings stay 0). -/
def Efrozen : ℚ → ℚ → ℚ := fun _ _ => 1

/-- Tissue-exponential stand-in that equilibrates instantly on exposures of
at least 150 minutes and not at all on shorter ones; a valid monotone
interpolation point set for an exponential family, used to freeze a heavy
bottom loading through the ascent and exhibit the runaway-stop guard. -/
def Estep : ℚ → ℚ → ℚ := fun _ m => if 150 ≤ m then 0 else 1

/-! ## Generic lemmas about the ceiling fold -/

/-- The running maximum in `overallCeiling` never decreases below its seed. -/
theorem foldlMax_ge_init (c : ℕ → ℚ) (l : List ℕ) (x : ℚ) :
    x ≤ l.foldl (fun w i => if w < c i then c i else w) x := by
  induction l generalizing x with
  | nil => exact le_refl x
  | cons a l ih =>
    simp only [List.foldl_cons]
    by_cases h : x < c a
    · simp only [if_pos h]
      exact le_trans (le_of_lt h) (ih (c a))
    · simp only [if_neg h]
      exact ih x

/-- Every listed compartment ceiling is dominated by the fold result. -/
theorem foldlMax_ge_mem (c : ℕ → ℚ) (l : List ℕ) (x : ℚ) (i : ℕ)
    (hi : i ∈ l) :
    c i ≤ l.foldl (fun w i => if w < c i then c i else w) x := by
  induction l generalizing x with
  | nil => cases hi
  | cons a l ih =>
    simp only [List.foldl_cons]
    rcases List.mem_cons.mp hi with h | h
    · subst h
      by_cases hx : x < c i
      · simp only [if_pos hx]
        exact foldlMax_ge_init c l (c i)
      · simp only [if_neg hx]
        exact le_trans (le_of_not_lt hx) (foldlMax_ge_init c l x)
    · exact ih _ h

/-- The fold result is the seed or one of the listed values. -/
theorem foldlMax_eq_init_or_mem (c : ℕ → ℚ) (l : List ℕ) (x : ℚ) :
    l.foldl (fun w i => if w < c i then c i else w) x = x ∨
      ∃ i ∈ l, l.foldl (fun w i => if w < c i then c i else w) x = c i := by
  induction l generalizing x with
  | nil => exact Or.inl rfl
  | cons a l ih =>
    simp only [List.foldl_cons]
    by_cases h : x < c a
    · simp only [if_pos h]
      rcases ih (c a) with h1 | ⟨i, hi, h2⟩
      · exact Or.inr ⟨a, List.mem_cons_self a l, h1⟩
      · exact Or.inr ⟨i, List.mem_cons_of_mem a hi, h2⟩
    · simp only [if_neg h]
      rcases ih x with h1 | ⟨i, hi, h2⟩
      · exact Or.inl h1
      · exact Or.inr ⟨i, List.mem_cons_of_mem a hi, h2⟩

/-- Per-compartment ceilings are clamped at 0. -/
theorem ceilingForComp_nonneg (pN2 pHe gf : ℚ) (i : ℕ) :
    0 ≤ ceilingForComp pN2 pHe gf i :=
  le_max_left 0 _

/-- The overall ceiling is never negative (for any state and any gf). -/
theorem overallCeiling_nonneg (st : TissueState) (gf : ℚ) :
    0 ≤ overallCeiling st gf :=
  foldlMax_ge_init _ _ 0

/-- C2: for every tissue state (16 compartments) and every gf in (0,1], the
ceiling computation blends the Bühlmann a/b coefficients in proportion to
the N2/He partial pressures, applies Baker's
`pAmbMin = (pTotal - gf*a) / (gf/b + (1 - gf))` with `pTotal = pN2 + pHe`,
converts to `max 0 ((pAmbMin - surfacePressure) / pressurePerMeter)` per
compartment, and `overallCeiling` is the maximum of the 16 per-compartment
ceilings, which is always nonnegative. -/
theorem overallCeiling_is_max_of_baker_ceilings (st : TissueState) (gf : ℚ)
    (hgf0 : 0 < gf) (hgf1 : gf ≤ 1) (hlen : st.pN2.length = 16) :
    0 ≤ overallCeiling st gf ∧
    (∀ i < 16,
      ceilingForComp (st.pN2.getD i 0) (st.pHe.getD i 0) gf i ≤
        overallCeiling st gf) ∧
    (∃ i < 16,
      overallCeiling st gf =
        ceilingForComp (st.pN2.getD i 0) (st.pHe.getD i 0) gf i) ∧
    (∀ pn ph : ℚ, 0 ≤ pn → 0 ≤ ph → 0 < pn + ph → ∀ i : ℕ,
      ceilingForComp pn ph gf i =
        max 0 (((pn + ph - gf * ((aN2 i * pn + aHE i * ph) / (pn + ph))) /
          (gf / ((bN2 i * pn + bHE i * ph) / (pn + ph)) + (1 - gf)) -
            SURFACE_PRESSURE) / PRESSURE_PER_METER)) := by
  refine ⟨overallCeiling_nonneg st gf, ?_, ?_, ?_⟩
  · intro i hi
    have : i ∈ List.range st.pN2.length := by
      rw [List.mem_range, hlen]; exact hi
    exact foldlMax_ge_mem _ _ 0 i this
  · rcases foldlMax_eq_init_or_mem
      (fun i => ceilingForComp (st.pN2.getD i 0) (st.pHe.getD i 0) gf i)
      (List.range st.pN2.length) 0 with h | ⟨i, hi, h⟩
    · refine ⟨0, by norm_num, ?_⟩
      have h0 : ceilingForComp (st.pN2.getD 0 0) (st.pHe.getD 0 0) gf 0 ≤
          overallCeiling st gf := by
        apply foldlMax_ge_mem
        rw [List.mem_range, hlen]; norm_num
      have h1 : overallCeiling st gf = 0 := h
      have h2 := ceilingForComp_nonneg (st.pN2.getD 0 0) (st.pHe.getD 0 0) gf 0
      rw [h1]
      exact le_antisymm h2 (h1 ▸ h0)
    · exact ⟨i, by rw [List.mem_range, hlen] at hi; exact hi, h⟩
  · intro pn ph hpn hph hsum i
    have h1 : max 0 pn = pn := max_eq_right hpn
    have h2 : max 0 ph = ph := max_eq_right hph
    have h3 : ¬(pn + ph = 0) := ne_of_gt hsum
    simp only [ceilingForComp, h1, h2, if_neg h3]

/-- C2 witness: the theorem applied to the initial (surface-saturated)
tissue state with gf = 0.85. -/
theorem overallCeiling_is_max_of_baker_ceilings_witness :
    (0 : ℚ) < 0.85 ∧ (0.85 : ℚ) ≤ 1 ∧ initTissues.pN2.length = 16 ∧
    (0 ≤ overallCeiling initTissues 0.85 ∧
     (∀ i < 16,
       ceilingForComp (initTissues.pN2.getD i 0) (initTissues.pHe.getD i 0)
           0.85 i ≤ overallCeiling initTissues 0.85) ∧
     (∃ i < 16,
       overallCeiling initTissues 0.85 =
         ceilingForComp (initTissues.pN2.getD i 0) (initTissues.pHe.getD i 0)
           0.85 i) ∧
     (∀ pn ph : ℚ, 0 ≤ pn → 0 ≤ ph → 0 < pn + ph → ∀ i : ℕ,
       ceilingForComp pn ph 0.85 i =
         max 0 (((pn + ph - 0.85 * ((aN2 i * pn + aHE i * ph) / (pn + ph))) /
           (0.85 / ((bN2 i * pn + bHE i * ph) / (pn + ph)) + (1 - 0.85)) -
             SURFACE_PRESSURE) / PRESSURE_PER_METER))) :=
  ⟨by norm_num, by norm_num, by decide,
    overallCeiling_is_max_of_baker_ceilings initTissues 0.85 (by norm_num)
      (by norm_num) (by decide)⟩

/-- C9: `gfAtDepth` rounds the first-stop depth up to a multiple of 3,
returns gfHigh when that is not positive, and otherwise interpolates
linearly with the clamped fraction `1 - depth / fs`; it equals gfLow at the
rounded first-stop depth, gfHigh at the surface, and always lies in
[gfLow, gfHigh]. -/
theorem gfAtDepth_spec (depthM gfLow gfHigh firstStopDepth : ℚ)
    (hd : 0 ≤ depthM) (hlh : gfLow ≤ gfHigh) (hl0 : 0 < gfLow)
    (hh1 : gfHigh ≤ 1) :
    (max 0 (((⌈firstStopDepth / 3⌉ : ℤ) * 3 : ℚ)) ≤ 0 →
      gfAtDepth depthM gfLow gfHigh firstStopDepth = gfHigh) ∧
    (0 < max 0 (((⌈firstStopDepth / 3⌉ : ℤ) * 3 : ℚ)) →
      gfAtDepth depthM gfLow gfHigh firstStopDepth =
        gfLow + (gfHigh - gfLow) *
          max 0 (min 1 (1 - depthM /
            max 0 (((⌈firstStopDepth / 3⌉ : ℤ) * 3 : ℚ))))) ∧
    (0 < max 0 (((⌈firstStopDepth / 3⌉ : ℤ) * 3 : ℚ)) →
      gfAtDepth (max 0 (((⌈firstStopDepth / 3⌉ : ℤ) * 3 : ℚ)))
        gfLow gfHigh firstStopDepth = gfLow) ∧
    gfAtDepth 0 gfLow gfHigh firstStopDepth = gfHigh ∧
    gfLow ≤ gfAtDepth depthM gfLow gfHigh firstStopDepth ∧
    gfAtDepth depthM gfLow gfHigh firstStopDepth ≤ gfHigh := by
  set fs : ℚ := max 0 (((⌈firstStopDepth / 3⌉ : ℤ) * 3 : ℚ)) with hfs
  have hg : gfLow ≤ gfHigh := hlh
  refine ⟨?_, ?_, ?_, ?_, ?_, ?_⟩
  · intro h
    simp only [gfAtDepth, ← hfs, if_pos h]
  · intro h
    simp only [gfAtDepth, ← hfs, if_neg (not_le.mpr h)]
  · intro h
    have hne : fs ≠ 0 := ne_of_gt h
    simp only [gfAtDepth, ← hfs, if_neg (not_le.mpr h), div_self hne]
    norm_num
  · by_cases h : fs ≤ 0
    · simp only [gfAtDepth, ← hfs, if_pos h]
    · simp only [gfAtDepth, ← hfs, if_neg h]
      norm_num
  · by_cases h : fs ≤ 0
    · simp only [gfAtDepth, ← hfs, if_pos h]; exact hlh
    · simp only [gfAtDepth, ← hfs, if_neg h]
      have h1 : (0 : ℚ) ≤ max 0 (min 1 (1 - depthM / fs)) := le_max_left 0 _
      nlinarith [h1]
  · by_cases h : fs ≤ 0
    · simp only [gfAtDepth, ← hfs, if_pos h]
      exact le_refl gfHigh
    · simp only [gfAtDepth, ← hfs, if_neg h]
      have h1 : max 0 (min 1 (1 - depthM / fs)) ≤ 1 := by
        apply max_le
        · norm_num
        · exact min_le_left 1 _
      nlinarith [h1]

/-- C9 witness: gfLow = 0.3, gfHigh = 0.8, firstStopDepth = 11 (rounded up
to 12), depth 3. -/
theorem gfAtDepth_spec_witness :
    (0 : ℚ) ≤ 3 ∧ (0.3 : ℚ) ≤ 0.8 ∧ (0 : ℚ) < 0.3 ∧ (0.8 : ℚ) ≤ 1 ∧
    ((max 0 (((⌈(11 : ℚ) / 3⌉ : ℤ) * 3 : ℚ)) ≤ 0 →
        gfAtDepth 3 0.3 0.8 11 = 0.8) ∧
     (0 < max 0 (((⌈(11 : ℚ) / 3⌉ : ℤ) * 3 : ℚ)) →
        gfAtDepth 3 0.3 0.8 11 =
          0.3 + (0.8 - 0.3) *
            max 0 (min 1 (1 - 3 / max 0 (((⌈(11 : ℚ) / 3⌉ : ℤ) * 3 : ℚ))))) ∧
     (0 < max 0 (((⌈(11 : ℚ) / 3⌉ : ℤ) * 3 : ℚ)) →
        gfAtDepth (max 0 (((⌈(11 : ℚ) / 3⌉ : ℤ) * 3 : ℚ))) 0.3 0.8 11 = 0.3) ∧
     gfAtDepth 0 0.3 0.8 11 = 0.8 ∧
     (0.3 : ℚ) ≤ gfAtDepth 3 0.3 0.8 11 ∧
     gfAtDepth 3 0.3 0.8 11 ≤ 0.8) :=
  ⟨by norm_num, by norm_num, by norm_num, by norm_num,
    gfAtDepth_spec 3 0.3 0.8 11 (by norm_num) (by norm_num) (by norm_num)
      (by norm_num)⟩

/-! ## Multi-gas selector lemmas (C4) -/

/-- One scan step either keeps the accumulator or selects the candidate
gas, marking both the switch flag and the reassignment flag, and in the
latter case the candidate is strictly richer. -/
theorem bestGasStep_cases (depth maxPO2 : ℚ)
    (acc : GasMix × Option String × Bool × Bool) (gs : GasSwitch) :
    bestGasStep depth maxPO2 acc gs = acc ∨
      (bestGasStep depth maxPO2 acc gs = (gs.gas, gs.name, true, true) ∧
        acc.1.FO2 < gs.gas.FO2) := by
  simp only [bestGasStep]
  split_ifs with h1 h2 h3
  · exact Or.inr ⟨rfl, h3⟩
  · exact Or.inl rfl
  · exact Or.inl rfl
  · exact Or.inl rfl

/-- The selected FO2 never decreases along the scan. -/
theorem bestGas_foldl_FO2_mono (depth maxPO2 : ℚ) (gases : List GasSwitch)
    (acc : GasMix × Option String × Bool × Bool) :
    acc.1.FO2 ≤ (gases.foldl (bestGasStep depth maxPO2) acc).1.FO2 := by
  induction gases generalizing acc with
  | nil => exact le_refl _
  | cons g gs ih =>
    simp only [List.foldl_cons]
    rcases bestGasStep_cases depth maxPO2 acc g with hc | ⟨hc, hlt⟩
    · rw [hc]
      exact ih acc
    · rw [hc]
      exact le_trans (le_of_lt hlt) (ih (g.gas, g.name, true, true))

/-- If the reassignment flag comes out true, either it was already true or
the scan selected a strictly richer gas than the accumulator held. -/
theorem bestGas_foldl_assigned (depth maxPO2 : ℚ) (gases : List GasSwitch)
    (acc : GasMix × Option String × Bool × Bool)
    (h : (gases.foldl (bestGasStep depth maxPO2) acc).2.2.2 = true) :
    acc.2.2.2 = true ∨
      acc.1.FO2 < (gases.foldl (bestGasStep depth maxPO2) acc).1.FO2 := by
  induction gases generalizing acc with
  | nil => exact Or.inl h
  | cons g gs ih =>
    simp only [List.foldl_cons] at h ⊢
    rcases bestGasStep_cases depth maxPO2 acc g with hc | ⟨hc, hlt⟩
    · rw [hc] at h ⊢
      exact ih acc h
    · rw [hc]
      refine Or.inr (lt_of_lt_of_le hlt ?_)
      exact bestGas_foldl_FO2_mono depth maxPO2 gs (g.gas, g.name, true, true)

unseal Rat.add Rat.sub Rat.mul Rat.inv Rat.ofScientific in
/-- C4 counterexample: at 30 m on pure oxygen with maxPO2 = 1.6 and no
alternative deco gas, the current PO2 exceeds the limit yet `shouldSwitch`
comes back false (the final `bestGas !== currentGas` conjunct masks the
safety override). -/
theorem getBestGas_po2_override_masked :
    (1.6 : ℚ) < calculatePO2 30 oxygenMix.FO2 ∧
    (getBestGasForDepth 30 [] oxygenMix 1.6).shouldSwitch = false := by
  decide

/-- C4 amended: `shouldSwitch` is true only when the scan actually selected
a usable deco gas strictly richer than the current gas; in particular, when
no richer usable alternative exists the flag stays false even if the
current gas's PO2 exceeds maxPO2. -/
theorem getBestGas_shouldSwitch_implies_richer (depth : ℚ)
    (gases : List GasSwitch) (cur : GasMix) (maxPO2 : ℚ)
    (h : (getBestGasForDepth depth gases cur maxPO2).shouldSwitch = true) :
    cur.FO2 < (getBestGasForDepth depth gases cur maxPO2).gas.FO2 := by
  simp only [getBestGasForDepth, Bool.and_eq_true] at h ⊢
  rcases bestGas_foldl_assigned depth maxPO2 gases (cur, none, false, false)
    h.2 with h1 | h1
  · exact absurd h1 (by norm_num)
  · exact h1

unseal Rat.add Rat.sub Rat.mul Rat.inv Rat.ofScientific in
/-- C4 amended witness: at 21 m with EAN50 available and usable, air
switches to the richer gas. -/
theorem getBestGas_shouldSwitch_implies_richer_witness :
    (getBestGasForDepth 21 [{ depth := 21, gas := ean50Mix, name := some "EAN50" }]
        airMix 1.6).shouldSwitch = true ∧
    airMix.FO2 <
      (getBestGasForDepth 21 [{ depth := 21, gas := ean50Mix, name := some "EAN50" }]
        airMix 1.6).gas.FO2 :=
  ⟨by decide,
    getBestGas_shouldSwitch_implies_richer 21
      [{ depth := 21, gas := ean50Mix, name := some "EAN50" }] airMix 1.6
      (by decide)⟩

/-! ## Validation lemmas (C7, C8) -/

unseal Rat.add Rat.sub Rat.mul Rat.inv Rat.ofScientific in
/-- C8: the minimal `normaliseGas` recomputes `FN2 = 1 - FO2 - FHe`, so its
sum check is vacuous: a mix with FO2 + FHe > 1 (here 0.8 + 0.5) is accepted
and returned with a negative FN2 instead of being rejected. -/
theorem normaliseGasMin_accepts_negative_FN2 :
    normaliseGasMin 0.8 0.5 =
      Except.ok { FO2 := 0.8, FHe := 0.5, FN2 := -0.3 } := by
  decide

set_option maxRecDepth 100000 in
unseal Rat.add Rat.sub Rat.mul Rat.inv Rat.ofScientific in
/-- C7 counterexample: gfLowPercent = gfHighPercent = 100 lies outside
[1, 99], yet `planDive` accepts it and returns a full plan (the adapter
only rejects values outside [0, 100]). -/
theorem planDive_accepts_gf100 :
    (99 : ℚ) < 100 ∧
    planDive Efrozen 0 0 airInput 100 100 {} =
      Except.ok { firstStopDepth := 3, stops := [], tts := 0,
                  totalDiveTime := 0, descentTime := 0, bottomTime := 0 } := by
  constructor
  · norm_num
  · decide

/-- C7 amended: `planDive` rejects the call before any simulation exactly
when a gradient-factor percentage lies outside [0, 100] or gfLow > gfHigh;
with percentages inside [0, 100], gfLow ≤ gfHigh and a valid gas, the
validation passes and the scheduler runs. -/
theorem planDive_gf_validation (E : ℚ → ℚ → ℚ) (depthM bottomMin : ℚ)
    (gasIn : GasMixInput) (lo hi : ℚ) (opts : PlanOpts) :
    ((lo < 0 ∨ 100 < lo ∨ hi < 0 ∨ 100 < hi ∨ hi < lo) →
      ∃ msg, planDive E depthM bottomMin gasIn lo hi opts =
        Except.error msg) ∧
    (0 ≤ lo → lo ≤ 100 → 0 ≤ hi → hi ≤ 100 → lo ≤ hi →
      ∀ gas, normaliseGas gasIn = Except.ok gas →
        planDive E depthM bottomMin gasIn lo hi opts =
          Except.ok (planDecompression E depthM bottomMin gas (lo / 100)
            (hi / 100) opts)) := by
  constructor
  · intro hbad
    cases hgas : normaliseGas gasIn with
    | error e =>
      exact ⟨e, by simp [planDive, hgas, Bind.bind, Except.bind]⟩
    | ok gas =>
      have hout : ∃ msg, normaliseGradientFactors lo hi = Except.error msg := by
        simp only [normaliseGradientFactors]
        by_cases h1 : lo < 0 ∨ 100 < lo
        · exact ⟨_, by rw [if_pos h1]⟩
        · by_cases h2 : hi < 0 ∨ 100 < hi
          · exact ⟨_, by rw [if_neg h1, if_pos h2]⟩
          · have h3 : hi < lo := by
              rcases hbad with h | h | h | h | h
              · exact (h1 (Or.inl h)).elim
              · exact (h1 (Or.inr h)).elim
              · exact (h2 (Or.inl h)).elim
              · exact (h2 (Or.inr h)).elim
              · exact h
            exact ⟨_, by rw [if_neg h1, if_neg h2, if_pos h3]⟩
      obtain ⟨msg, hmsg⟩ := hout
      exact ⟨msg, by simp [planDive, hgas, hmsg, Bind.bind, Except.bind]⟩
  · intro h1 h2 h3 h4 h5 gas hgas
    have hgf : normaliseGradientFactors lo hi = Except.ok (lo / 100, hi / 100) := by
      simp only [normaliseGradientFactors]
      rw [if_neg (by push_neg; constructor <;> linarith),
        if_neg (by push_neg; constructor <;> linarith),
        if_neg (not_lt.mpr h5)]
    simp [planDive, hgas, hgf, Bind.bind, Except.bind, Functor.map, Except.map,
      Pure.pure, Except.pure]

unseal Rat.add Rat.sub Rat.mul Rat.inv Rat.ofScientific in
/-- C7 amended witness: 101 is rejected, 85/85 passes and plans. -/
theorem planDive_gf_validation_witness :
    (∃ msg, planDive Efrozen 0 0 airInput 101 50 {} = Except.error msg) ∧
    planDive Efrozen 0 0 airInput 85 85 {} =
      Except.ok (planDecompression Efrozen 0 0 airMix (85 / 100) (85 / 100) {}) :=
  ⟨(planDive_gf_validation Efrozen 0 0 airInput 101 50 {}).1
      (by norm_num),
    (planDive_gf_validation Efrozen 0 0 airInput 85 85 {}).2
      (by norm_num) (by norm_num) (by norm_num) (by norm_num) (by norm_num)
      airMix (by decide)⟩

/-! ## Runaway-guard behaviour (C3) and rounding of the returned times (C1) -/

set_option maxRecDepth 200000 in
unseal Rat.add Rat.sub Rat.mul Rat.inv Rat.ofScientific in
/-- C3: a run in which every stop hits the 360-minute guard (tissue
response `Estep` freezes a heavy 20 m bottom loading through the whole
ascent, `timeStep = 100`, so each hold loop breaks at 400 minutes) still
returns an ordinary `DecompressionPlan` — four stops recorded at 400
minutes each, no error and no degraded flag (the plan type has no such
field and `planDecompression` is total). -/
theorem planDecompression_runaway_silent :
    planDecompression Estep 20 150 airMix 1 1 { timeStepMinutes := 100 } =
      { firstStopDepth := 12,
        stops := [{ depth := 12, time := 400, gf := 1 },
                  { depth := 9, time := 400, gf := 1 },
                  { depth := 6, time := 400, gf := 1 },
                  { depth := 3, time := 400, gf := 1 }],
        tts := 2100, totalDiveTime := 2350, descentTime := 100,
        bottomTime := 150 } ∧
    ∀ s ∈ (planDecompression Estep 20 150 airMix 1 1
        { timeStepMinutes := 100 }).stops, 360 < s.time := by
  decide

set_option maxRecDepth 200000 in
unseal Rat.add Rat.sub Rat.mul Rat.inv Rat.ofScientific in
/-- C1 counterexample: for a 9.5 m dive with zero bottom time (default
0.5-minute steps) the raw times are descent 0.5 min and deco 1.5 min, so
the returned fields round to descentTime = 1, tts = 2,
totalDiveTime = round(2.0) = 2, and the claimed identity
totalDiveTime = descentTime + bottomTime + tts fails (2 ≠ 1 + 0 + 2). -/
theorem plan_totalDiveTime_rounding_counterexample :
    ¬(((planDecompression Efrozen 9.5 0 airMix 0.85 0.85 {}).totalDiveTime : ℚ) =
      ((planDecompression Efrozen 9.5 0 airMix 0.85 0.85 {}).descentTime : ℚ) +
        (planDecompression Efrozen 9.5 0 airMix 0.85 0.85 {}).bottomTime +
        ((planDecompression Efrozen 9.5 0 airMix 0.85 0.85 {}).tts : ℚ)) := by
  decide

/-! ## Time accounting through the loops (C1) -/

/-- The hold loop advances `decoTime` by exactly the held time. -/
theorem holdLoop_deco (E : ℚ → ℚ → ℚ) (gas : GasMix)
    (gl gh fs sd ls ml t : ℚ) (fuel : ℕ) :
    ∀ (st : TissueState) (held deco : ℚ),
    (holdLoop E gas gl gh fs sd ls ml t fuel st held deco).2.2 =
      deco + ((holdLoop E gas gl gh fs sd ls ml t fuel st held deco).2.1 - held) := by
  induction fuel with
  | zero =>
    intro st held deco
    simp [holdLoop]
  | succ n ih =>
    intro st held deco
    simp only [holdLoop]
    split_ifs with h1 h2
    · simp
    · simp
    · rw [ih]
      ring

/-- One stop-loop iteration moves `decoTime` exactly by the hold time plus
the ascent time it also logs in the instrumentation totals. -/
theorem stopIter_acc (E : ℚ → ℚ → ℚ) (gas : GasMix)
    (gl gh fs ls ml t : ℚ) (hf : ℕ) (sd : ℚ) (st : TissueState) (cur : ℚ)
    (acc : StopAcc) :
    (stopIter E gas gl gh fs ls ml t hf sd st cur acc).acc.deco -
        (stopIter E gas gl gh fs ls ml t hf sd st cur acc).acc.holdT -
        (stopIter E gas gl gh fs ls ml t hf sd st cur acc).acc.interAscT =
      acc.deco - acc.holdT - acc.interAscT := by
  simp only [stopIter]
  have h := holdLoop_deco E gas gl gh fs sd ls ml t hf st 0 acc.deco
  rw [h]
  ring

/-- The stop list argument of `stopLoop` is a pure accumulator. -/
theorem stopLoop_append (E : ℚ → ℚ → ℚ) (gas : GasMix)
    (gl gh fs ls ml t : ℚ) (hf : ℕ) (fuel : ℕ) :
    ∀ (sd : ℚ) (st : TissueState) (cur : ℚ) (acc : StopAcc)
      (stops : List DecompressionStop),
    (stopLoop E gas gl gh fs ls ml t hf fuel sd st cur acc stops).2.2.2 =
      stops ++ (stopLoop E gas gl gh fs ls ml t hf fuel sd st cur acc []).2.2.2 := by
  induction fuel with
  | zero =>
    intro sd st cur acc stops
    simp [stopLoop]
  | succ n ih =>
    intro sd st cur acc stops
    simp only [stopLoop]
    split_ifs with h1 h2
    · simp
    · rw [ih, ih _ _ _ _ ([] ++ _)]
      simp
    · simp

/-- Inside the stop loop, `decoTime` only moves together with the stop-hold
and inter-stop-ascent instrumentation totals. -/
theorem stopLoop_acc (E : ℚ → ℚ → ℚ) (gas : GasMix)
    (gl gh fs ls ml t : ℚ) (hf : ℕ) (fuel : ℕ) :
    ∀ (sd : ℚ) (st : TissueState) (cur : ℚ) (acc : StopAcc)
      (stops : List DecompressionStop),
    (stopLoop E gas gl gh fs ls ml t hf fuel sd st cur acc stops).2.2.1.deco -
        (stopLoop E gas gl gh fs ls ml t hf fuel sd st cur acc stops).2.2.1.holdT -
        (stopLoop E gas gl gh fs ls ml t hf fuel sd st cur acc stops).2.2.1.interAscT =
      acc.deco - acc.holdT - acc.interAscT := by
  induction fuel with
  | zero =>
    intro sd st cur acc stops
    simp [stopLoop]
  | succ n ih =>
    intro sd st cur acc stops
    simp only [stopLoop]
    split_ifs with h1 h2
    · simpa using stopIter_acc E gas gl gh fs ls ml t hf sd st cur acc
    · rw [ih]
      exact stopIter_acc E gas gl gh fs ls ml t hf sd st cur acc
    · simp

/-- Starting from `deco = ascT` with zeroed instrumentation, the loop's
final `decoTime` is the ascent-to-first-stop time plus the totals of stop
holds and inter-stop ascents. -/
theorem stopLoop_deco_total (E : ℚ → ℚ → ℚ) (gas : GasMix)
    (gl gh fs ls ml t : ℚ) (hf fuel : ℕ) (sd : ℚ) (st : TissueState)
    (cur ascT : ℚ) :
    (stopLoop E gas gl gh fs ls ml t hf fuel sd st cur
        { deco := ascT, holdT := 0, interAscT := 0 } []).2.2.1.deco =
      ascT +
        (stopLoop E gas gl gh fs ls ml t hf fuel sd st cur
          { deco := ascT, holdT := 0, interAscT := 0 } []).2.2.1.holdT +
        (stopLoop E gas gl gh fs ls ml t hf fuel sd st cur
          { deco := ascT, holdT := 0, interAscT := 0 } []).2.2.1.interAscT := by
  have h := stopLoop_acc E gas gl gh fs ls ml t hf fuel sd st cur
    { deco := ascT, holdT := 0, interAscT := 0 } []
  simp only at h
  linarith

/-- C1 amended: `tts` is the rounded raw decompression time, which is
exactly the sum of the four decompression phases (ascent to first stop,
stop holds, inter-stop ascents, final ascent) and excludes descent and
bottom time; the returned `totalDiveTime` is
`round(descentRaw + bottomMin + decoRaw)` — the identity
`totalDiveTime = descentTime + bottomTime + tts` holds for the raw times
but the independently rounded fields may differ (see the counterexample). -/
theorem planDecompression_time_accounting (E : ℚ → ℚ → ℚ)
    (depthM bottomMin : ℚ) (gas : GasMix) (gfLow gfHigh : ℚ)
    (opts : PlanOpts) :
    (planDecompressionAux E depthM bottomMin gas gfLow gfHigh opts).decoTime =
      (planDecompressionAux E depthM bottomMin gas gfLow gfHigh opts).ascFirstT +
        (planDecompressionAux E depthM bottomMin gas gfLow gfHigh opts).holdT +
        (planDecompressionAux E depthM bottomMin gas gfLow gfHigh opts).interAscT +
        (planDecompressionAux E depthM bottomMin gas gfLow gfHigh opts).finalAscT ∧
    (planDecompression E depthM bottomMin gas gfLow gfHigh opts).tts =
      jsRound (planDecompressionAux E depthM bottomMin gas gfLow gfHigh opts).decoTime ∧
    (planDecompression E depthM bottomMin gas gfLow gfHigh opts).totalDiveTime =
      jsRound ((planDecompressionAux E depthM bottomMin gas gfLow gfHigh opts).descentTime +
        bottomMin +
        (planDecompressionAux E depthM bottomMin gas gfLow gfHigh opts).decoTime) ∧
    (planDecompression E depthM bottomMin gas gfLow gfHigh opts).descentTime =
      jsRound (planDecompressionAux E depthM bottomMin gas gfLow gfHigh opts).descentTime ∧
    (planDecompression E depthM bottomMin gas gfLow gfHigh opts).bottomTime =
      bottomMin := by
  refine ⟨?_, rfl, rfl, rfl, rfl⟩
  simp only [planDecompressionAux, planDecompressionAuxE]
  rw [stopLoop_deco_total]

/-! ## The depth loops reach their targets (used by C5, C6, C10) -/

/-- Ascent invariant: within the computed step range, the clamped position
is `target + rate * max 0 (timeRemaining)`, so once enough steps have run
the loop sits exactly on `target`. -/
theorem moveLoop_up_cur (E : ℚ → ℚ → ℚ) (gas : GasMix)
    (rate target t totalTime : ℚ) (hrate : 0 < rate) (ht : 0 < t) :
    ∀ (n i : ℕ) (st : TissueState) (cur : ℚ),
    cur = target + rate * max 0 (totalTime - i * t) →
    ((i : ℚ) + n) * t ≤ totalTime + t →
    totalTime ≤ ((i : ℚ) + n) * t →
    (moveLoop E gas rate target t totalTime false n i st cur).2 = target := by
  intro n
  induction n with
  | zero =>
    intro i st cur hcur hub hlb
    have h0 : totalTime - (i : ℚ) * t ≤ 0 := by
      push_cast at hlb
      linarith
    simp only [moveLoop]
    rw [hcur, max_eq_left h0]
    ring
  | succ n ih =>
    intro i st cur hcur hub hlb
    have hin : (i : ℚ) * t ≤ totalTime := by
      push_cast at hub
      have hnt : (0 : ℚ) ≤ (n : ℚ) * t := by positivity
      nlinarith
    have harg : (moveLoop E gas rate target t totalTime false (n + 1) i st cur) =
      moveLoop E gas rate target t totalTime false n (i + 1)
        (updateConstantDepth E st
          (max target (cur - rate * min t (totalTime - i * t))) gas
          (min t (totalTime - i * t)))
        (max target (cur - rate * min t (totalTime - i * t))) := by
      simp [moveLoop]
    rw [harg]
    apply ih (i + 1)
    · -- the clamped invariant is preserved one step
      by_cases hcase : t ≤ totalTime - (i : ℚ) * t
      · have h1 : min t (totalTime - (i : ℚ) * t) = t := min_eq_left hcase
        have h2 : max 0 (totalTime - (i : ℚ) * t) = totalTime - (i : ℚ) * t :=
          max_eq_right (by linarith)
        have h3 : (0 : ℚ) ≤ totalTime - ((i : ℚ) + 1) * t := by linarith
        have h4 : max 0 (totalTime - ((i : ℚ) + 1) * t) =
            totalTime - ((i : ℚ) + 1) * t := max_eq_right h3
        rw [h1, hcur, h2]
        push_cast
        rw [h4]
        have h5 : target ≤ target + rate * (totalTime - (i : ℚ) * t) - rate * t := by
          nlinarith
        rw [max_eq_right (by linarith)]
        ring
      · push_neg at hcase
        have h1 : min t (totalTime - (i : ℚ) * t) = totalTime - (i : ℚ) * t :=
          min_eq_right (le_of_lt hcase)
        have h2 : max 0 (totalTime - (i : ℚ) * t) = totalTime - (i : ℚ) * t :=
          max_eq_right (by linarith)
        have h3 : totalTime - ((i : ℚ) + 1) * t ≤ 0 := by linarith
        rw [h1, hcur, h2]
        push_cast
        rw [max_eq_left h3]
        have h4 : target + rate * (totalTime - (i : ℚ) * t) -
            rate * (totalTime - (i : ℚ) * t) = target := by ring
        rw [h4, max_self]
        ring
    · push_cast
      push_cast at hub
      linarith
    · push_cast
      push_cast at hlb
      linarith

/-- With a positive time step, an ascent block lands exactly on the clamped
target: the resulting depth is `min cur target`. -/
theorem ascentBlock_cur (E : ℚ → ℚ → ℚ) (gas : GasMix) (t target : ℚ)
    (ht : 0 < t) (st : TissueState) (cur : ℚ) :
    (ascentBlock E gas t target st cur).2.1 = min cur target := by
  simp only [ascentBlock]
  split_ifs with h
  · have htt : 0 < (cur - target) / ASCENT_RATE := by
      apply div_pos (by linarith) (by norm_num [ASCENT_RATE])
    set totalTime := (cur - target) / ASCENT_RATE with htot
    have hceil1 : (1 : ℤ) ≤ ⌈totalTime / t⌉ := by
      rw [Int.le_ceil_iff]
      push_cast
      have := div_pos htt ht
      linarith
    have hcast : ((⌈totalTime / t⌉.toNat : ℕ) : ℚ) = (⌈totalTime / t⌉ : ℚ) := by
      exact_mod_cast congrArg (fun z : ℤ => (z : ℚ))
        (Int.toNat_of_nonneg (by linarith))
    have harr := moveLoop_up_cur E gas ASCENT_RATE target t totalTime
      (by norm_num [ASCENT_RATE]) ht ⌈totalTime / t⌉.toNat 0 st cur ?_ ?_ ?_
    · rw [harr, min_eq_right (le_of_lt h)]
    · push_cast
      have h0 : max 0 (totalTime - 0 * t) = totalTime := by
        rw [max_eq_right (by linarith)]
        ring_nf
      rw [h0, htot]
      simp only [ASCENT_RATE]
      ring
    · push_cast
      rw [hcast]
      have h1 : (⌈totalTime / t⌉ : ℚ) < totalTime / t + 1 := by
        exact_mod_cast Int.ceil_lt_add_one (totalTime / t)
      have h2 : totalTime / t * t = totalTime := by
        field_simp
      nlinarith
    · push_cast
      rw [hcast]
      have h1 : totalTime / t ≤ (⌈totalTime / t⌉ : ℚ) := Int.le_ceil _
      have h2 : totalTime / t * t = totalTime := by
        field_simp
      nlinarith
  · push_neg at h
    rw [min_eq_left h]

/-- Descent steps keep the position nonnegative. -/
theorem moveLoop_down_nonneg (E : ℚ → ℚ → ℚ) (gas : GasMix)
    (rate target t totalTime : ℚ) (hrate : 0 < rate) (ht : 0 < t)
    (htarget : 0 ≤ target) :
    ∀ (n i : ℕ) (st : TissueState) (cur : ℚ),
    0 ≤ cur → ((i : ℚ) + n) * t ≤ totalTime + t →
    0 ≤ (moveLoop E gas rate target t totalTime true n i st cur).2 := by
  intro n
  induction n with
  | zero =>
    intro i st cur hcur _
    simpa [moveLoop] using hcur
  | succ n ih =>
    intro i st cur hcur hub
    have hin : (i : ℚ) * t ≤ totalTime := by
      push_cast at hub
      have hnt : (0 : ℚ) ≤ (n : ℚ) * t := by positivity
      nlinarith
    have hstep : 0 ≤ min t (totalTime - (i : ℚ) * t) := by
      apply le_min (le_of_lt ht)
      linarith
    have harg : (moveLoop E gas rate target t totalTime true (n + 1) i st cur) =
      moveLoop E gas rate target t totalTime true n (i + 1)
        (updateConstantDepth E st
          (min target (cur + rate * min t (totalTime - i * t))) gas
          (min t (totalTime - i * t)))
        (min target (cur + rate * min t (totalTime - i * t))) := by
      simp [moveLoop]
    rw [harg]
    apply ih (i + 1)
    · apply le_min htarget
      nlinarith
    · push_cast
      push_cast at hub
      linarith

/-- The descent block returns a nonnegative depth. -/
theorem descentBlock_nonneg (E : ℚ → ℚ → ℚ) (gas : GasMix) (t d : ℚ)
    (ht : 0 < t) (st : TissueState) (cur : ℚ) (hcur : 0 ≤ cur) :
    0 ≤ (descentBlock E gas t d st cur).2.1 := by
  simp only [descentBlock]
  split_ifs with h
  · set totalTime := d / DESCENT_RATE with htot
    have htt : 0 < totalTime := div_pos h (by norm_num [DESCENT_RATE])
    have hceil1 : (1 : ℤ) ≤ ⌈totalTime / t⌉ := by
      rw [Int.le_ceil_iff]
      push_cast
      have := div_pos htt ht
      linarith
    have hcast : ((⌈totalTime / t⌉.toNat : ℕ) : ℚ) = (⌈totalTime / t⌉ : ℚ) := by
      exact_mod_cast congrArg (fun z : ℤ => (z : ℚ))
        (Int.toNat_of_nonneg (by linarith))
    apply moveLoop_down_nonneg E gas DESCENT_RATE d t totalTime
      (by norm_num [DESCENT_RATE]) ht (le_of_lt h) _ 0 st cur hcur
    push_cast
    rw [hcast]
    have h1 : (⌈totalTime / t⌉ : ℚ) < totalTime / t + 1 := by
      exact_mod_cast Int.ceil_lt_add_one (totalTime / t)
    have h2 : totalTime / t * t = totalTime := by
      field_simp
    nlinarith
  · exact hcur

/-! ## Hold-loop exit and fuel lemmas (C6, C10) -/

/-- With enough fuel, the hold loop at the last stop leaves only once the
minimum hold is met or the 360-minute guard fires. -/
theorem holdLoop_exit (E : ℚ → ℚ → ℚ) (gas : GasMix)
    (gl gh fs sd ls ml t : ℚ) :
    ∀ (fuel : ℕ) (st : TissueState) (held deco : ℚ),
    360 < held + fuel * t → sd = ls →
    ml ≤ (holdLoop E gas gl gh fs sd ls ml t fuel st held deco).2.1 ∨
      360 < (holdLoop E gas gl gh fs sd ls ml t fuel st held deco).2.1 := by
  intro fuel
  induction fuel with
  | zero =>
    intro st held deco hbound _
    right
    simpa [holdLoop] using by push_cast at hbound; linarith
  | succ n ih =>
    intro st held deco hbound hsd
    simp only [holdLoop]
    split_ifs with h1 h2
    · rcases h1.2 with h | h
      · exact absurd hsd h
      · exact Or.inl h
    · exact Or.inr h2
    · exact ih _ _ _ (by push_cast; push_cast at hbound; linarith) hsd

/-- Beyond the guard bound, the hold loop result does not depend on the
fuel. -/
theorem holdLoop_fuel_irrel (E : ℚ → ℚ → ℚ) (gas : GasMix)
    (gl gh fs sd ls ml t : ℚ) :
    ∀ (f1 f2 : ℕ) (st : TissueState) (held deco : ℚ),
    held ≤ 360 → 360 < held + f1 * t → 360 < held + f2 * t →
    holdLoop E gas gl gh fs sd ls ml t f1 st held deco =
      holdLoop E gas gl gh fs sd ls ml t f2 st held deco := by
  intro f1
  induction f1 with
  | zero =>
    intro f2 st held deco hle hb1 _
    exact absurd hb1 (by push_cast; linarith)
  | succ n ih =>
    intro f2 st held deco hle hb1 hb2
    cases f2 with
    | zero => exact absurd hb2 (by push_cast; linarith)
    | succ m =>
      simp only [holdLoop]
      split_ifs with h1 h2
      · rfl
      · rfl
      · apply ih
        · push_neg at h2
          exact h2
        · push_cast
          push_cast at hb1
          linarith
        · push_cast
          push_cast at hb2
          linarith

/-- The precomputed hold fuel satisfies the guard bound. -/
theorem holdFuelFor_bound (t : ℚ) (ht : 0 < t) (extra : ℕ) :
    360 < ((holdFuelFor t + extra : ℕ) : ℚ) * t := by
  have h1 : (361 : ℚ) / t ≤ (⌈(361 : ℚ) / t⌉ : ℚ) := Int.le_ceil _
  have h2 : (0 : ℤ) ≤ ⌈(361 : ℚ) / t⌉ := by
    have : (0 : ℚ) < 361 / t := by positivity
    have := Int.le_ceil ((361 : ℚ) / t)
    exact_mod_cast Int.ceil_nonneg (by positivity)
  have hcast : ((⌈(361 : ℚ) / t⌉.toNat : ℕ) : ℚ) = (⌈(361 : ℚ) / t⌉ : ℚ) :=
    by exact_mod_cast congrArg (fun z : ℤ => (z : ℚ)) (Int.toNat_of_nonneg h2)
  have h3 : ((holdFuelFor t + extra : ℕ) : ℚ) ≥ 361 / t := by
    simp only [holdFuelFor]
    push_cast
    rw [hcast]
    have : (0 : ℚ) ≤ (extra : ℚ) := by positivity
    linarith
  have h4 : 361 / t * t = 361 := by field_simp
  nlinarith

/-! ## Stop-iteration facts and the shape of the stop list (C5, C6) -/

/-- `Math.round` is monotone past any integer bound. -/
theorem le_jsRound_of_le (k : ℤ) (q : ℚ) (h : (k : ℚ) ≤ q) :
    (k : ℚ) ≤ ((jsRound q : ℤ) : ℚ) := by
  have : k ≤ jsRound q := by
    rw [jsRound, Int.le_floor]
    push_cast
    linarith
  exact_mod_cast this

/-- With a positive time step, one stop iteration leaves the diver at
`min cur (max 0 (stopDepth - 3))`. -/
theorem stopIter_cur (E : ℚ → ℚ → ℚ) (gas : GasMix)
    (gl gh fs ls ml t : ℚ) (hf : ℕ) (sd : ℚ) (st : TissueState) (cur : ℚ)
    (acc : StopAcc) (ht : 0 < t) :
    (stopIter E gas gl gh fs ls ml t hf sd st cur acc).cur =
      min cur (max 0 (sd - STOP_STEP)) := by
  simp only [stopIter]
  exact ascentBlock_cur E gas t _ ht _ cur

/-- The break flag holds exactly when the next depth is the surface and the
ascent ended at the surface. -/
theorem stopIter_brk (E : ℚ → ℚ → ℚ) (gas : GasMix)
    (gl gh fs ls ml t : ℚ) (hf : ℕ) (sd : ℚ) (st : TissueState) (cur : ℚ)
    (acc : StopAcc) :
    (stopIter E gas gl gh fs ls ml t hf sd st cur acc).brk = true ↔
      (max 0 (sd - STOP_STEP) = 0 ∧
        (stopIter E gas gl gh fs ls ml t hf sd st cur acc).cur = 0) := by
  simp only [stopIter]
  exact decide_eq_true_iff

/-- Each iteration pushes nothing or exactly one stop, at the current stop
depth. -/
theorem stopIter_push_shape (E : ℚ → ℚ → ℚ) (gas : GasMix)
    (gl gh fs ls ml t : ℚ) (hf : ℕ) (sd : ℚ) (st : TissueState) (cur : ℚ)
    (acc : StopAcc) :
    (stopIter E gas gl gh fs ls ml t hf sd st cur acc).push = [] ∨
      ∃ q g, (stopIter E gas gl gh fs ls ml t hf sd st cur acc).push =
        [{ depth := sd, time := q, gf := g }] := by
  simp only [stopIter]
  split_ifs with h
  · exact Or.inr ⟨_, _, rfl⟩
  · exact Or.inl rfl

/-- At the last stop, with sufficient hold fuel and a forced minimum hold
of `k` whole minutes (1 ≤ k ≤ 360), the iteration pushes exactly one stop
at that depth whose recorded duration is at least `k`. -/
theorem stopIter_push_min (E : ℚ → ℚ → ℚ) (gas : GasMix)
    (gl gh fs ls t : ℚ) (hf : ℕ) (st : TissueState) (cur : ℚ) (acc : StopAcc)
    (k : ℕ) (hk1 : 1 ≤ k) (hk360 : (k : ℚ) ≤ 360)
    (hhf : 360 < (hf : ℚ) * t) :
    ∃ s, (stopIter E gas gl gh fs ls (k : ℚ) t hf ls st cur acc).push = [s] ∧
      s.depth = ls ∧ (k : ℚ) ≤ s.time := by
  have hexit := holdLoop_exit E gas gl gh fs ls ls (k : ℚ) t hf st 0 acc.deco
    (by linarith) rfl
  have hk : (k : ℚ) ≤ (holdLoop E gas gl gh fs ls ls (k : ℚ) t hf st 0
      acc.deco).2.1 := by
    rcases hexit with h | h
    · exact h
    · linarith
  have hpos : 0 < (holdLoop E gas gl gh fs ls ls (k : ℚ) t hf st 0
      acc.deco).2.1 := by
    have : (1 : ℚ) ≤ (k : ℚ) := by exact_mod_cast hk1
    linarith
  refine ⟨{ depth := ls,
            time := ((jsRound (holdLoop E gas gl gh fs ls ls (k : ℚ) t hf st 0
              acc.deco).2.1 : ℤ) : ℚ),
            gf := gfAtDepth ls gl gh fs }, ?_, rfl, ?_⟩
  · simp only [stopIter, if_pos hpos]
  · exact le_jsRound_of_le (k : ℤ) _ (by exact_mod_cast hk)

/-- C5 core: the stop loop started at a nonnegative multiple of 3 (with the
last stop at 3 m or deeper) produces a strictly decreasing list of positive
stop depths that are multiples of 3. -/
theorem stopLoop_stops_shape (E : ℚ → ℚ → ℚ) (gas : GasMix)
    (gl gh fs ls ml t : ℚ) (hf : ℕ) (hls : 3 ≤ ls) :
    ∀ (fuel : ℕ) (sd : ℚ) (st : TissueState) (cur : ℚ) (acc : StopAcc),
    (∃ m : ℕ, sd = 3 * m) →
    List.Chain' (fun a b => b.depth < a.depth)
        (stopLoop E gas gl gh fs ls ml t hf fuel sd st cur acc []).2.2.2 ∧
      ∀ s ∈ (stopLoop E gas gl gh fs ls ml t hf fuel sd st cur acc []).2.2.2,
        s.depth ≤ sd ∧ 0 < s.depth ∧ ∃ m : ℕ, s.depth = 3 * m := by
  intro fuel
  induction fuel with
  | zero =>
    intro sd st cur acc _
    simp [stopLoop]
  | succ n ih =>
    intro sd st cur acc hm
    obtain ⟨m, hm⟩ := hm
    by_cases hbr : ls ≤ sd
    · have hsd3 : (3 : ℚ) ≤ sd := le_trans hls hbr
      have hmpos : 1 ≤ m := by
        by_contra hm0
        push_neg at hm0
        interval_cases m
        rw [hm] at hsd3
        norm_num at hsd3
      have hnext : max 0 (sd - STOP_STEP) = sd - 3 := by
        rw [STOP_STEP, max_eq_right]
        linarith
      have hnextm : ∃ m' : ℕ, sd - 3 = 3 * m' := by
        refine ⟨m - 1, ?_⟩
        rw [hm]
        have : (m : ℚ) - 1 = ((m - 1 : ℕ) : ℚ) := by
          push_cast [hmpos]
          ring
        linarith [this]
      simp only [stopLoop, if_pos hbr]
      cases hbrk : (stopIter E gas gl gh fs ls ml t hf sd st cur acc).brk with
      | false =>
        -- loop continues
        rw [if_neg (by simp [hbrk])]
        rw [stopLoop_append, hnext]
        have hIH := ih (sd - 3)
          (stopIter E gas gl gh fs ls ml t hf sd st cur acc).st
          (stopIter E gas gl gh fs ls ml t hf sd st cur acc).cur
          (stopIter E gas gl gh fs ls ml t hf sd st cur acc).acc hnextm
        rcases stopIter_push_shape E gas gl gh fs ls ml t hf sd st cur acc
          with hp | ⟨q, g, hp⟩
        · rw [hp]
          simp only [List.nil_append]
          refine ⟨hIH.1, fun s hs => ?_⟩
          obtain ⟨h1, h2, h3⟩ := hIH.2 s hs
          exact ⟨by linarith, h2, h3⟩
        · rw [hp]
          simp only [List.nil_append, List.singleton_append]
          constructor
          · rw [List.chain'_cons']
            refine ⟨fun y hy => ?_, hIH.1⟩
            have hymem := List.mem_of_mem_head? hy
            have := (hIH.2 y hymem).1
            simp only
            linarith
          · intro s hs
            rcases List.mem_cons.mp hs with hs | hs
            · subst hs
              exact ⟨le_refl sd, by linarith, m, hm⟩
            · obtain ⟨h1, h2, h3⟩ := hIH.2 s hs
              exact ⟨by linarith, h2, h3⟩
      | true =>
        -- break: only this iteration's push remains
        rw [if_pos (by simp [hbrk])]
        simp only [List.nil_append]
        rcases stopIter_push_shape E gas gl gh fs ls ml t hf sd st cur acc
          with hp | ⟨q, g, hp⟩
        · rw [hp]
          simp
        · rw [hp]
          refine ⟨List.chain'_singleton _, fun s hs => ?_⟩
          rw [List.mem_singleton] at hs
          subst hs
          exact ⟨le_refl sd, by linarith, m, hm⟩
    · simp [stopLoop, if_neg hbr]

/-- The first stop depth decomposes as `lastStop + 3m`, and the precomputed
stop-loop fuel covers those `m` iterations plus the final ones. -/
theorem firstStopOf_decomp (E : ℚ → ℚ → ℚ) (gas : GasMix)
    (t d b gl ls : ℚ) (hls : ls = 3 ∨ ls = 6) :
    ∃ m : ℕ, firstStopOf E gas t d b gl (max 0 ls) = max 0 ls + 3 * m ∧
      m + 2 ≤ stopFuelFor (firstStopOf E gas t d b gl (max 0 ls)) := by
  have hls0 : max 0 ls = ls := by
    rcases hls with h | h <;> rw [h] <;> norm_num
  have hc : 0 ≤ overallCeiling (preStop E gas t d b).1 gl :=
    overallCeiling_nonneg _ _
  have hz : (0 : ℤ) ≤ ⌈overallCeiling (preStop E gas t d b).1 gl /
      STOP_STEP⌉ := by
    apply Int.ceil_nonneg
    rw [STOP_STEP]
    positivity
  simp only [firstStopOf, hls0]
  set z := ⌈overallCeiling (preStop E gas t d b).1 gl / STOP_STEP⌉ with hzdef
  by_cases h : ((z : ℤ) : ℚ) * STOP_STEP ≤ ls
  · rw [max_eq_left h]
    refine ⟨0, by push_cast; ring, ?_⟩
    simp only [stopFuelFor]
    omega
  · push_neg at h
    rw [max_eq_right h.le]
    have hfuel : ∀ m : ℕ, (m : ℤ) ≤ z →
        m + 2 ≤ stopFuelFor (((z : ℤ) : ℚ) * STOP_STEP) := by
      intro m hmz
      simp only [stopFuelFor, STOP_STEP]
      have h33 : ((z : ℤ) : ℚ) * 3 / 3 = ((z : ℤ) : ℚ) := by ring
      rw [h33, Int.ceil_intCast]
      omega
    rcases hls with hl | hl
    · have hz2 : (2 : ℤ) ≤ z := by
        rw [hl, STOP_STEP] at h
        by_contra hlt
        push_neg at hlt
        have : ((z : ℤ) : ℚ) ≤ 1 := by exact_mod_cast (by omega : z ≤ 1)
        nlinarith
      refine ⟨(z - 1).toNat, ?_, ?_⟩
      · rw [hl, STOP_STEP]
        have hcast : (((z - 1).toNat : ℕ) : ℚ) = ((z : ℤ) : ℚ) - 1 := by
          exact_mod_cast congrArg (fun w : ℤ => (w : ℚ))
            (Int.toNat_of_nonneg (by omega))
        rw [hcast]
        ring
      · exact hfuel _ (by omega)
    · have hz3 : (3 : ℤ) ≤ z := by
        rw [hl, STOP_STEP] at h
        by_contra hlt
        push_neg at hlt
        have : ((z : ℤ) : ℚ) ≤ 2 := by exact_mod_cast (by omega : z ≤ 2)
        nlinarith
      refine ⟨(z - 2).toNat, ?_, ?_⟩
      · rw [hl, STOP_STEP]
        have hcast : (((z - 2).toNat : ℕ) : ℚ) = ((z : ℤ) : ℚ) - 2 := by
          exact_mod_cast congrArg (fun w : ℤ => (w : ℚ))
            (Int.toNat_of_nonneg (by omega))
        rw [hcast]
        ring
      · exact hfuel _ (by omega)

/-- The first stop depth is a nonnegative multiple of 3 when the last stop
is at 3 or 6 m. -/
theorem firstStopOf_mul3 (E : ℚ → ℚ → ℚ) (gas : GasMix)
    (t d b gl ls : ℚ) (hls : ls = 3 ∨ ls = 6) :
    ∃ m : ℕ, firstStopOf E gas t d b gl (max 0 ls) = 3 * m := by
  obtain ⟨m, hm, _⟩ := firstStopOf_decomp E gas t d b gl ls hls
  rcases hls with hl | hl
  · refine ⟨m + 1, ?_⟩
    rw [hm, hl]
    push_cast
    norm_num
    ring
  · refine ⟨m + 2, ?_⟩
    rw [hm, hl]
    push_cast
    norm_num
    ring

/-- C5: for every plan with lastStopDepth in {3, 6}, the stop depths are
strictly decreasing (deepest first) and each is a positive (hence
nonnegative) multiple of 3 meters. -/
theorem planDecompression_stops_monotonic (E : ℚ → ℚ → ℚ)
    (depthM bottomMin : ℚ) (gas : GasMix) (gfLow gfHigh ls ml t : ℚ)
    (hls : ls = 3 ∨ ls = 6) :
    List.Chain' (fun a b => b.depth < a.depth)
        (planDecompression E depthM bottomMin gas gfLow gfHigh
          { lastStopDepth := ls, minLastStopMinutes := ml,
            timeStepMinutes := t }).stops ∧
      ∀ s ∈ (planDecompression E depthM bottomMin gas gfLow gfHigh
          { lastStopDepth := ls, minLastStopMinutes := ml,
            timeStepMinutes := t }).stops,
        0 < s.depth ∧ ∃ m : ℕ, s.depth = 3 * m := by
  have hls3 : (3 : ℚ) ≤ max 0 ls := by
    rcases hls with h | h <;> rw [h] <;> norm_num
  simp only [planDecompression, planDecompressionAux, planDecompressionAuxE]
  constructor
  · exact (stopLoop_stops_shape E gas _ _ _ _ _ _ _ hls3 _ _ _ _ _
      (firstStopOf_mul3 E gas _ _ _ _ _ hls)).1
  · intro s hs
    have h := (stopLoop_stops_shape E gas _ _ _ _ _ _ _ hls3 _ _ _ _ _
      (firstStopOf_mul3 E gas _ _ _ _ _ hls)).2 s hs
    exact ⟨h.2.1, h.2.2⟩

set_option maxRecDepth 400000 in
unseal Rat.add Rat.sub Rat.mul Rat.inv Rat.ofScientific in
/-- C5 witness: the four-stop runaway plan has lastStopDepth 3 and its
stops (12, 9, 6, 3) are strictly decreasing positive multiples of 3. -/
theorem planDecompression_stops_monotonic_witness :
    ((3 : ℚ) = 3 ∨ (3 : ℚ) = 6) ∧
    (List.Chain' (fun a b => b.depth < a.depth)
        (planDecompression Estep 20 150 airMix 1 1
          { lastStopDepth := 3, minLastStopMinutes := 0,
            timeStepMinutes := 100 }).stops ∧
      ∀ s ∈ (planDecompression Estep 20 150 airMix 1 1
          { lastStopDepth := 3, minLastStopMinutes := 0,
            timeStepMinutes := 100 }).stops,
        0 < s.depth ∧ ∃ m : ℕ, s.depth = 3 * m) :=
  ⟨Or.inl rfl,
    planDecompression_stops_monotonic Estep 20 150 airMix 1 1 3 0 100
      (Or.inl rfl)⟩

/-- C6 core: starting the stop loop at `ls + 3m` with enough fuel, a
positive time step and minLast = k (1 ≤ k ≤ 360, whole minutes), the
resulting stop list ends with a stop at the last-stop depth held at least
`k` minutes. -/
theorem stopLoop_last_stop (E : ℚ → ℚ → ℚ) (gas : GasMix)
    (gl gh fs t ls : ℚ) (hf : ℕ) (k : ℕ)
    (hls : ls = 3 ∨ ls = 6) (ht : 0 < t) (hk1 : 1 ≤ k)
    (hk360 : (k : ℚ) ≤ 360) (hhf : 360 < (hf : ℚ) * t) :
    ∀ (m : ℕ) (fuel : ℕ) (sd : ℚ) (st : TissueState) (cur : ℚ)
      (acc : StopAcc),
    sd = ls + 3 * m → m + 2 ≤ fuel → 0 ≤ cur →
    ∃ L s,
      (stopLoop E gas gl gh fs ls (k : ℚ) t hf fuel sd st cur acc []).2.2.2 =
        L ++ [s] ∧ s.depth = ls ∧ (k : ℚ) ≤ s.time := by
  intro m
  induction m with
  | zero =>
    intro fuel sd st cur acc hsd hfuel hcur
    have hsd' : sd = ls := by rw [hsd]; push_cast; ring
    subst hsd'
    obtain ⟨f1, rfl⟩ : ∃ f1, fuel = f1 + 1 := ⟨fuel - 1, by omega⟩
    obtain ⟨s, hpush, hdepth, htime⟩ :=
      stopIter_push_min E gas gl gh fs sd t hf st cur acc k hk1 hk360 hhf
    simp only [stopLoop, if_pos (le_refl sd)]
    rcases hls with h3 | h6
    · subst h3
      have hb : (stopIter E gas gl gh fs 3 (k : ℚ) t hf 3 st cur acc).brk =
          true := by
        rw [stopIter_brk]
        refine ⟨by norm_num [STOP_STEP], ?_⟩
        rw [stopIter_cur E gas gl gh fs 3 (k : ℚ) t hf 3 st cur acc ht]
        rw [show max 0 ((3 : ℚ) - STOP_STEP) = 0 by norm_num [STOP_STEP]]
        exact min_eq_right hcur
      rw [if_pos hb, hpush]
      exact ⟨[], s, by simp, hdepth, htime⟩
    · subst h6
      have hb : (stopIter E gas gl gh fs 6 (k : ℚ) t hf 6 st cur acc).brk =
          false := by
        rw [Bool.eq_false_iff, Ne, stopIter_brk]
        rintro ⟨h0, _⟩
        rw [show max 0 ((6 : ℚ) - STOP_STEP) = 3 by norm_num [STOP_STEP]] at h0
        norm_num at h0
      rw [if_neg (by simp [hb])]
      obtain ⟨f2, rfl⟩ : ∃ f2, f1 = f2 + 1 := ⟨f1 - 1, by omega⟩
      rw [show max 0 ((6 : ℚ) - STOP_STEP) = 3 by norm_num [STOP_STEP]]
      simp only [stopLoop, if_neg (by norm_num : ¬(6 : ℚ) ≤ 3)]
      rw [hpush]
      exact ⟨[], s, by simp, hdepth, htime⟩
  | succ m ihm =>
    intro fuel sd st cur acc hsd hfuel hcur
    obtain ⟨f1, rfl⟩ : ∃ f1, fuel = f1 + 1 := ⟨fuel - 1, by omega⟩
    have hlsv : (3 : ℚ) ≤ ls := by rcases hls with h | h <;> rw [h] <;> norm_num
    have hm0 : (0 : ℚ) ≤ 3 * ((m : ℚ) + 1) := by positivity
    have hsdgt : ls ≤ sd := by
      rw [hsd]
      push_cast
      linarith
    have hnext : max 0 (sd - STOP_STEP) = ls + 3 * m := by
      rw [STOP_STEP, hsd]
      push_cast
      rw [max_eq_right (by linarith)]
      ring
    have hb : (stopIter E gas gl gh fs ls (k : ℚ) t hf sd st cur acc).brk =
        false := by
      rw [Bool.eq_false_iff, Ne, stopIter_brk]
      rintro ⟨h0, _⟩
      rw [hnext] at h0
      have : (0 : ℚ) ≤ 3 * (m : ℚ) := by positivity
      linarith
    simp only [stopLoop, if_pos hsdgt]
    rw [if_neg (by simp [hb]), hnext, stopLoop_append]
    have hcur' : 0 ≤ (stopIter E gas gl gh fs ls (k : ℚ) t hf sd st cur
        acc).cur := by
      rw [stopIter_cur E gas gl gh fs ls (k : ℚ) t hf sd st cur acc ht]
      exact le_min hcur (le_max_left 0 _)
    obtain ⟨L, s, hL, hd, htm⟩ := ihm f1 (ls + 3 * m)
      (stopIter E gas gl gh fs ls (k : ℚ) t hf sd st cur acc).st
      (stopIter E gas gl gh fs ls (k : ℚ) t hf sd st cur acc).cur
      (stopIter E gas gl gh fs ls (k : ℚ) t hf sd st cur acc).acc
      rfl (by omega) hcur'
    rw [hL]
    refine ⟨([] ++ (stopIter E gas gl gh fs ls (k : ℚ) t hf sd st cur
      acc).push) ++ L, s, by simp, hd, htm⟩

set_option maxRecDepth 400000 in
unseal Rat.add Rat.sub Rat.mul Rat.inv Rat.ofScientific in
/-- C6 counterexample: `minLastStopMinutes = 0.5 > 0` is floored to 0, and
a 40 m dive with no bottom time (frozen tissues, ceilings 0) returns a plan
with no stop at all — no final stop of duration ≥ 0.5 exists. -/
theorem planDecompression_min_hold_half_ignored :
    (0 : ℚ) < 0.5 ∧
    (planDecompression Efrozen 40 0 airMix 0.85 0.85
      { minLastStopMinutes := 0.5 }).stops = [] := by
  constructor
  · norm_num
  · decide

/-- C6 amended: for a whole-minute forced hold `k` with 1 ≤ k ≤ 360, a
last stop at 3 or 6 m, a positive time step and a nonnegative depth, the
returned plan ends with a stop at the configured last-stop depth whose
recorded duration is at least `k` minutes (even when the ceiling would
allow immediate ascent).  For fractional `k` the floor can erase the hold
(see the counterexample), and past the 360-minute guard the bound cannot be
honoured. -/
theorem planDecompression_forced_min_hold (E : ℚ → ℚ → ℚ)
    (depthM bottomMin : ℚ) (gas : GasMix) (gfLow gfHigh ls t : ℚ) (k : ℕ)
    (hls : ls = 3 ∨ ls = 6) (hk1 : 1 ≤ k) (hk360 : (k : ℚ) ≤ 360)
    (ht : 0 < t) (hd : 0 ≤ depthM) :
    ∃ L s,
      (planDecompression E depthM bottomMin gas gfLow gfHigh
        { lastStopDepth := ls, minLastStopMinutes := (k : ℚ),
          timeStepMinutes := t }).stops = L ++ [s] ∧
      s.depth = ls ∧ (k : ℚ) ≤ s.time := by
  have hls0 : max 0 ls = ls := by
    rcases hls with h | h <;> rw [h] <;> norm_num
  have hls' : max 0 ls = 3 ∨ max 0 ls = 6 := by rw [hls0]; exact hls
  obtain ⟨m, hm, hmf⟩ := firstStopOf_decomp E gas t depthM bottomMin gfLow ls
    hls
  have hcur0 : 0 ≤ (ascFirstOf E gas t depthM bottomMin gfLow
      (max 0 ls)).2.1 := by
    rw [ascFirstOf, ascentBlock_cur E gas t _ ht]
    apply le_min
    · rw [preStop]
      split_ifs with hb
      · exact hd
      · exact descentBlock_nonneg E gas t depthM ht initTissues 0 (le_refl 0)
    · rw [hm]
      have h3m : (0 : ℚ) ≤ 3 * m := by positivity
      rw [hls0]
      rcases hls with h | h <;> rw [h] <;> linarith
  have hml : ((max 0 ⌊((k : ℕ) : ℚ)⌋ : ℤ) : ℚ) = ((k : ℕ) : ℚ) := by
    simp
  simp only [planDecompression, planDecompressionAux, planDecompressionAuxE]
  rw [hml]
  obtain ⟨L, s, hL, hd', ht'⟩ := stopLoop_last_stop E gas gfLow gfHigh
    (firstStopOf E gas t depthM bottomMin gfLow (max 0 ls)) t (max 0 ls)
    (holdFuelFor t + 0) k hls' ht hk1 hk360 (holdFuelFor_bound t ht 0) m
    (stopFuelFor (firstStopOf E gas t depthM bottomMin gfLow (max 0 ls)) + 0)
    (firstStopOf E gas t depthM bottomMin gfLow (max 0 ls))
    (ascFirstOf E gas t depthM bottomMin gfLow (max 0 ls)).1
    (ascFirstOf E gas t depthM bottomMin gfLow (max 0 ls)).2.1
    { deco := (ascFirstOf E gas t depthM bottomMin gfLow (max 0 ls)).2.2,
      holdT := 0, interAscT := 0 }
    hm (by omega) hcur0
  exact ⟨L, s, hL, by rw [hd', hls0], ht'⟩

/-- C6 amended witness: the theorem applied to a 40 m no-bottom-time dive
with a forced 1-minute hold at 3 m and the default 0.5-minute step. -/
theorem planDecompression_forced_min_hold_witness :
    ∃ L s,
      (planDecompression Efrozen 40 0 airMix 0.85 0.85
        { lastStopDepth := 3, minLastStopMinutes := ((1 : ℕ) : ℚ),
          timeStepMinutes := 0.5 }).stops = L ++ [s] ∧
      s.depth = 3 ∧ ((1 : ℕ) : ℚ) ≤ s.time :=
  planDecompression_forced_min_hold Efrozen 40 0 airMix 0.85 0.85 3 0.5 1
    (Or.inl rfl) (le_refl 1) (by norm_num) (by norm_num) (by norm_num)

/-! ## Termination: the precomputed fuels are sufficient (C10) -/

/-- The stop-loop fuel bound `⌈firstStop/3⌉ + 2` dominates the loop depth
count. -/
theorem stopFuelFor_bound (fs : ℚ) (hfs : 0 ≤ fs) (extra : ℕ) :
    fs + 3 ≤ 3 * ((stopFuelFor fs + extra : ℕ) : ℚ) := by
  have hz : (0 : ℤ) ≤ ⌈fs / 3⌉ := Int.ceil_nonneg (by positivity)
  have hcast : ((⌈fs / 3⌉.toNat : ℕ) : ℚ) = ((⌈fs / 3⌉ : ℤ) : ℚ) := by
    exact_mod_cast congrArg (fun z : ℤ => (z : ℚ)) (Int.toNat_of_nonneg hz)
  have hce : fs / 3 ≤ ((⌈fs / 3⌉ : ℤ) : ℚ) := Int.le_ceil _
  simp only [stopFuelFor]
  push_cast
  rw [hcast]
  have hex : (0 : ℚ) ≤ (extra : ℚ) := by positivity
  linarith

/-- The stop loop gives the same result for any sufficient pair of fuels. -/
theorem stopLoop_fuel_irrel (E : ℚ → ℚ → ℚ) (gas : GasMix)
    (gl gh fs ls ml t : ℚ) (ht : 0 < t) (hls0 : 0 ≤ ls) :
    ∀ (f1 f2 h1 h2 : ℕ) (sd : ℚ) (st : TissueState) (cur : ℚ)
      (acc : StopAcc) (stops : List DecompressionStop),
    0 ≤ cur → sd + 3 ≤ 3 * f1 → sd + 3 ≤ 3 * f2 →
    360 < (h1 : ℚ) * t → 360 < (h2 : ℚ) * t →
    stopLoop E gas gl gh fs ls ml t h1 f1 sd st cur acc stops =
      stopLoop E gas gl gh fs ls ml t h2 f2 sd st cur acc stops := by
  intro f1
  induction f1 with
  | zero =>
    intro f2 h1 h2 sd st cur acc stops hcur hb1 hb2 hh1 hh2
    have hsd : sd < ls := by
      push_cast at hb1
      linarith
    cases f2 with
    | zero => rfl
    | succ m =>
      simp only [stopLoop, if_neg (not_le.mpr hsd)]
  | succ n ih =>
    intro f2 h1 h2 sd st cur acc stops hcur hb1 hb2 hh1 hh2
    by_cases hbr : ls ≤ sd
    · have hsd0 : 0 ≤ sd := le_trans hls0 hbr
      have hf2 : 1 ≤ f2 := by
        have h1q : (1 : ℚ) ≤ (f2 : ℚ) := by linarith
        exact_mod_cast h1q
      obtain ⟨m, rfl⟩ : ∃ m, f2 = m + 1 := ⟨f2 - 1, by omega⟩
      have hiter : stopIter E gas gl gh fs ls ml t h1 sd st cur acc =
          stopIter E gas gl gh fs ls ml t h2 sd st cur acc := by
        simp only [stopIter]
        rw [holdLoop_fuel_irrel E gas gl gh fs sd ls ml t h1 h2 st 0 acc.deco
          (by norm_num) (by simpa using hh1) (by simpa using hh2)]
      simp only [stopLoop, if_pos hbr]
      rw [hiter]
      by_cases hb :
          (stopIter E gas gl gh fs ls ml t h2 sd st cur acc).brk = true
      · rw [if_pos hb, if_pos hb]
      · rw [if_neg hb, if_neg hb]
        have hcur' : 0 ≤
            (stopIter E gas gl gh fs ls ml t h2 sd st cur acc).cur := by
          rw [stopIter_cur E gas gl gh fs ls ml t h2 sd st cur acc ht]
          exact le_min hcur (le_max_left 0 _)
        have hsd3 : (3 : ℚ) ≤ sd := by
          by_contra hlt
          push_neg at hlt
          apply hb
          rw [stopIter_brk]
          have hnx : max 0 (sd - STOP_STEP) = 0 := by
            rw [STOP_STEP, max_eq_left (by linarith)]
          refine ⟨hnx, ?_⟩
          rw [stopIter_cur E gas gl gh fs ls ml t h2 sd st cur acc ht, hnx]
          exact min_eq_right hcur
        have hnext : max 0 (sd - STOP_STEP) = sd - 3 := by
          rw [STOP_STEP, max_eq_right (by linarith)]
        rw [hnext]
        apply ih m h1 h2 (sd - 3) _ _ _ _ hcur' ?_ ?_ hh1 hh2
        · push_cast
          push_cast at hb1
          linarith
        · push_cast
          push_cast at hb2
          linarith
    · cases f2 with
      | zero => simp only [stopLoop, if_neg hbr]
      | succ m => simp only [stopLoop, if_neg hbr]

/-- After descent and bottom, the ascent to the first stop leaves a
nonnegative current depth. -/
theorem ascFirstOf_nonneg (E : ℚ → ℚ → ℚ) (gas : GasMix)
    (t d b gl ls' : ℚ) (ht : 0 < t) (hd : 0 ≤ d) (hls' : 0 ≤ ls') :
    0 ≤ (ascFirstOf E gas t d b gl ls').2.1 := by
  rw [ascFirstOf, ascentBlock_cur E gas t _ ht]
  apply le_min
  · rw [preStop]
    split_ifs with hb
    · exact hd
    · exact descentBlock_nonneg E gas t d ht initTissues 0 (le_refl 0)
  · simp only [firstStopOf]
    exact le_trans hls' (le_max_left _ _)

/-- C10: with a nonnegative depth and bottom time and a positive time step,
every loop of the scheduler exits by its own condition within the
precomputed fuel: adding any extra fuel to the hold loop or the stop loop
does not change the simulation result, so `planDecompression` terminates
with the per-stop 360-minute guard, the 3 m-per-iteration stop loop and the
precomputed ascent/descent step counts as bounds. -/
theorem planDecompression_fuel_sufficient (E : ℚ → ℚ → ℚ)
    (depthM bottomMin : ℚ) (gas : GasMix) (gfLow gfHigh ls ml t : ℚ)
    (eh es : ℕ) (hd : 0 ≤ depthM) (hb : 0 ≤ bottomMin) (ht : 0 < t) :
    planDecompressionAuxE E eh es depthM bottomMin gas gfLow gfHigh
        { lastStopDepth := ls, minLastStopMinutes := ml,
          timeStepMinutes := t } =
      planDecompressionAux E depthM bottomMin gas gfLow gfHigh
        { lastStopDepth := ls, minLastStopMinutes := ml,
          timeStepMinutes := t } := by
  have hfs0 : 0 ≤ firstStopOf E gas t depthM bottomMin gfLow (max 0 ls) := by
    simp only [firstStopOf]
    exact le_trans (le_max_left 0 ls) (le_max_left _ _)
  have hcur0 : 0 ≤ (ascFirstOf E gas t depthM bottomMin gfLow
      (max 0 ls)).2.1 :=
    ascFirstOf_nonneg E gas t depthM bottomMin gfLow (max 0 ls) ht hd
      (le_max_left 0 ls)
  have hloop := stopLoop_fuel_irrel E gas gfLow gfHigh
    (firstStopOf E gas t depthM bottomMin gfLow (max 0 ls)) (max 0 ls)
    ((max 0 ⌊ml⌋ : ℤ) : ℚ) t ht (le_max_left 0 ls)
    (stopFuelFor (firstStopOf E gas t depthM bottomMin gfLow (max 0 ls)) + es)
    (stopFuelFor (firstStopOf E gas t depthM bottomMin gfLow (max 0 ls)) + 0)
    (holdFuelFor t + eh) (holdFuelFor t + 0)
    (firstStopOf E gas t depthM bottomMin gfLow (max 0 ls))
    (ascFirstOf E gas t depthM bottomMin gfLow (max 0 ls)).1
    (ascFirstOf E gas t depthM bottomMin gfLow (max 0 ls)).2.1
    { deco := (ascFirstOf E gas t depthM bottomMin gfLow (max 0 ls)).2.2,
      holdT := 0, interAscT := 0 } [] hcur0
    (stopFuelFor_bound _ hfs0 es) (stopFuelFor_bound _ hfs0 0)
    (holdFuelFor_bound t ht eh) (holdFuelFor_bound t ht 0)
  simp only [planDecompressionAux, planDecompressionAuxE]
  rw [hloop]

/-- C10 witness: the theorem applied with one unit of extra fuel on both
loops for the 9.5 m no-stop dive. -/
theorem planDecompression_fuel_sufficient_witness :
    planDecompressionAuxE Efrozen 1 1 9.5 0 airMix 0.85 0.85
        { lastStopDepth := 3, minLastStopMinutes := 0,
          timeStepMinutes := 0.5 } =
      planDecompressionAux Efrozen 9.5 0 airMix 0.85 0.85
        { lastStopDepth := 3, minLastStopMinutes := 0,
          timeStepMinutes := 0.5 } :=
  planDecompression_fuel_sufficient Efrozen 9.5 0 airMix 0.85 0.85 3 0 0.5
    1 1 (by norm_num) (by norm_num) (by norm_num)

end Buhlmann
